import Mathlib

/-!
# Verification of the InfiniteStorageFace upload orchestrator

Shallow embedding of the core logic of the repository
(`appBUENA.py`, `app2.py`, `app3.py`, `app4.py`, `InfiniteStorageFace.py`,
`streamlit_app.py`) and proofs about the claims of its specification.

Strings are modelled by Lean `String`/`List Char`; the Hugging Face SDK
(the Remote Repository Gateway) is modelled as an oracle supplying the
outcome of each remote operation, while the orchestrator code that calls
it is translated statement by statement.  Wall-clock timestamps prefixed
by the `log` helpers are elided (they are real-time data, irrelevant to
every claim), so a logged message is modelled by its text.
-/

namespace ISF

/-! ## Path filter (`app4.py`, `has_files_to_upload`)

`has_files_to_upload` decides inclusion of a relative path by
`re.match(pattern.replace("**/", ""), relative_path)`: the ignore pattern,
after deleting every occurrence of the substring `**/`, is handed to
Python's `re` module as a regular expression and matched against a prefix
of the path.  We model the fragment of Python regex syntax exercised by
the repository's patterns: literal characters, `.` (any character) and a
postfix `*` quantifier.  Any other metacharacter, a leading `*`
(Python: "nothing to repeat") or a doubled quantifier (Python: "multiple
repeat") is mapped to a compilation error, which `re` raises as an
exception; `Option` models that error. -/

/-- One regex atom: a literal character or the `.` wildcard. -/
inductive RAtom where
  | lit (c : Char)
  | dot
deriving DecidableEq, Repr

/-- Does a regex atom match one character? -/
def atomMatch : RAtom → Char → Bool
  | .lit c, d => c == d
  | .dot, _ => true

/-- `str.replace("**/", "")` of Python, on the character list of the
pattern: delete every (left-to-right, non-overlapping) occurrence of the
three-character substring `**/`. -/
def stripRecMarker : List Char → List Char
  | '*' :: '*' :: '/' :: rest => stripRecMarker rest
  | c :: rest => c :: stripRecMarker rest
  | [] => []

/-- Metacharacters of Python `re` that the embedding does not model as
literals; a pattern containing one (other than a well-placed `.` or `*`)
is mapped to a compilation error. -/
def isRegexMeta (c : Char) : Bool :=
  c == '?' || c == '+' || c == '(' || c == ')' || c == '[' || c == ']' ||
  c == '^' || c == '$' || c == '|' || c == '\\'

/-- A character the regex engine treats as a literal. -/
def isLiteralChar (c : Char) : Bool :=
  !(isRegexMeta c || c == '.' || c == '*')

/-- The atom denoted by one pattern character. -/
def charAtom (c : Char) : RAtom :=
  if c == '.' then RAtom.dot else RAtom.lit c

/-- Compile a Python regex (the supported fragment) into a sequence of
atoms, each optionally starred.  `none` models `re.error`: a leading
`*` ("nothing to repeat", also covering a doubled `*` after a starred
atom, Python's "multiple repeat") or an unmodelled metacharacter. -/
def compileRe : List Char → Option (List (RAtom × Bool))
  | [] => some []
  | c :: rest =>
    if c == '*' || isRegexMeta c then none
    else
      match rest with
      | [] => some [(charAtom c, false)]
      | d :: rest' =>
        if d == '*' then (compileRe rest').map (fun r => (charAtom c, true) :: r)
        else (compileRe (d :: rest')).map (fun r => (charAtom c, false) :: r)

/-- The suffixes of `s` reachable by consuming zero or more characters
matching the starred atom `a` (the `s` itself first: zero repetitions). -/
def starSuffixes (a : RAtom) : List Char → List (List Char)
  | [] => [[]]
  | c :: cs => (c :: cs) :: (if atomMatch a c then starSuffixes a cs else [])

/-- All suffixes of `s` left over after the compiled regex has matched a
prefix of `s`; the regex matches (in the sense of `re.match`) iff this
list is nonempty. -/
def matchSuffixes : List (RAtom × Bool) → List Char → List (List Char)
  | [], s => [s]
  | (a, false) :: rest, s =>
    match s with
    | [] => []
    | c :: cs => if atomMatch a c then matchSuffixes rest cs else []
  | (a, true) :: rest, s =>
    (starSuffixes a s).flatMap (fun t => matchSuffixes rest t)

/-- Does the compiled regex match some prefix of `s`?  This is the
acceptance condition of Python's `re.match` (anchored at the start, not
at the end). -/
def reMatch (r : List (RAtom × Bool)) (s : List Char) : Bool :=
  !(matchSuffixes r s).isEmpty

/-- `re.match(pattern.replace("**/", ""), path)` of `has_files_to_upload`:
`none` models a raised `re.error`, otherwise whether the path is
excluded by this single pattern. -/
def pyMatchPattern (pattern path : String) : Option Bool :=
  match compileRe (stripRecMarker pattern.data) with
  | none => none
  | some r => some (reMatch r path.data)

/-- The exclusion test of `has_files_to_upload` over the whole pattern
list: Python's `any(re.match(...) for pattern in ignore_patterns)`,
evaluated lazily left to right (an invalid pattern raises before later
patterns are tried). -/
def pyExcluded : List String → String → Option Bool
  | [], _ => some false
  | p :: ps, path =>
    match pyMatchPattern p path with
    | none => none
    | some true => some true
    | some false => pyExcluded ps path

/-- `included(P, S)` of the specification's Path Filter contract, as
implemented: a path survives iff no pattern matches. -/
def included (path : String) (patterns : List String) : Option Bool :=
  (pyExcluded patterns path).map (fun b => !b)

/-- All suffixes of a list, the list itself first. -/
def allSuffixes {α : Type} : List α → List (List α)
  | [] => [[]]
  | c :: cs => (c :: cs) :: allSuffixes cs

/-- Residual suffixes of one glob component matched against a prefix of
one path component: `*` consumes any run of characters, any other
character only itself. -/
def globSegSuffixes : List Char → List Char → List (List Char)
  | [], s => [s]
  | '*' :: ps, s => (allSuffixes s).flatMap (fun t => globSegSuffixes ps t)
  | p :: ps, s =>
    match s with
    | [] => []
    | c :: cs => if p == c then globSegSuffixes ps cs else []

/-- Modelled from the spec: segment-boundary glob matching of one
pattern component against one whole path component — `*` matches any
sequence of characters within the component, every other character
matches itself; the pattern must consume the entire component. -/
def globSeg (p s : List Char) : Bool :=
  (globSegSuffixes p s).contains []

/-- Residual component-list suffixes of a component-wise glob match:
`**` consumes any run of path components, any other pattern component
exactly one matching path component. -/
def globCompsSuffixes : List String → List String → List (List String)
  | [], s => [s]
  | p :: ps, s =>
    if p = "**" then (allSuffixes s).flatMap (fun t => globCompsSuffixes ps t)
    else
      match s with
      | [] => []
      | c :: cs => if globSeg p.data c.data then globCompsSuffixes ps cs else []

/-- Modelled from the spec: does a `/`-split glob pattern match a
`/`-split path in full, `**` spanning any number of segments? -/
def globComps (p s : List String) : Bool :=
  (globCompsSuffixes p s).contains []

/-- Python `key.split('/')` on a character list: always at least one
(possibly empty) part. -/
def splitSlash : List Char → List (List Char)
  | [] => [[]]
  | c :: rest =>
    match splitSlash rest with
    | [] => [[]]
    | s :: ss => if c = '/' then [] :: s :: ss else (c :: s) :: ss

/-- The segments of a `/`-delimited string. -/
def splitKey (k : String) : List String :=
  (splitSlash k.data).map (fun cs => String.mk cs)

/-- Modelled from the spec: a pattern matches a relative path under
segment-boundary semantics — a pattern without `/` must match one whole
path component; a pattern with `/` must match the whole component list
(with `**` spanning segments).  A path is excluded iff some pattern of
the set matches it. -/
def specMatches (pattern path : String) : Bool :=
  match splitKey pattern with
  | [p] => (splitKey path).any (fun s => globSeg p.data s.data)
  | ps => globComps ps (splitKey path)

/-- Modelled from the spec: exclusion by a pattern set under
segment-boundary semantics. -/
def specExcluded (patterns : List String) (path : String) : Bool :=
  patterns.any (fun p => specMatches p path)

/-! ## Remote tree builder (`get_remote_tree` of `appBUENA.py`, `app3.py`,
`app4.py`)

The Python code folds the flat key list into a dict-of-dicts:

    tree = {}
    for file in files:
        parts = file.split('/')
        current = tree
        for part in parts:
            current = current.setdefault(part, {})

A Python dict preserves insertion order, so a node is an ordered
association list from segment name to child node; `Forest` is that list
(a node is identified with its children).  `build_tree` renders an entry
as a leaf exactly when its dict is empty (`if subtree:`). -/

/-- A tree node's ordered children: key plus child node, in insertion
order.  The node of the Python code is its (possibly empty) dict, i.e. a
`Forest`. -/
inductive Forest where
  | nil
  | cons (key : String) (child : Forest) (rest : Forest)
deriving Repr, DecidableEq

/-- Is this node's dict empty (a leaf for `build_tree`)? -/
def Forest.isNil : Forest → Bool
  | .nil => true
  | .cons _ _ _ => false

/-- One `setdefault` step followed by processing the remaining parts
inside the (existing or fresh) child: if the key is present, rewrite its
child by `sub`; otherwise append `(p, sub {})` at the end, as Python's
`setdefault` does. -/
def insertForest (p : String) (sub : Forest → Forest) : Forest → Forest
  | .nil => .cons p (sub .nil) .nil
  | .cons k c rest =>
    if k == p then .cons k (sub c) rest
    else .cons k c (insertForest p sub rest)

/-- The inner `for part in parts` loop of `get_remote_tree` for one key:
thread `setdefault` along the segment list. -/
def insertPath : List String → Forest → Forest
  | [], f => f
  | p :: ps, f => insertForest p (insertPath ps) f

/-- The outer `for file in files` loop: build the remote tree from the
flat `/`-delimited key list. -/
def buildRemoteTree (keys : List String) : Forest :=
  keys.foldl (fun f k => insertPath (splitKey k) f) .nil

/-- Flatten the tree back to the list of leaf paths (segment lists):
the inverse reading of `build_tree`, which renders an entry with a
nonempty dict as a directory and one with an empty dict as a file. -/
def flattenForest : Forest → List (List String)
  | .nil => []
  | .cons k c rest =>
    (if c.isNil then [[k]] else (flattenForest c).map (fun q => k :: q)) ++
      flattenForest rest

/-- Lookup of a key in a node's children (first occurrence). -/
def lookupF : Forest → String → Option Forest
  | .nil, _ => none
  | .cons k c rest, p => if k == p then some c else lookupF rest p

/-- Walk a segment path down the tree, returning the node reached. -/
def followF : Forest → List String → Option Forest
  | f, [] => some f
  | f, p :: ps =>
    match lookupF f p with
    | none => none
    | some c => followF c ps

/-- Is a key present in a node's children? -/
def hasKeyF : Forest → String → Bool
  | .nil, _ => false
  | .cons k _ rest, p => k == p || hasKeyF rest p

/-- Structural well-formedness: at every node the keys are pairwise
distinct (true of every dict, hence of every tree the code builds). -/
def wfF : Forest → Bool
  | .nil => true
  | .cons k c rest => !(hasKeyF rest k) && wfF c && wfF rest

/-- The invariant of the remote-tree fold: after inserting the segment
lists `done` into an empty tree, a segment path leads to a node exactly
when it is a (possibly empty) prefix of an inserted key, and the node it
reaches is a leaf exactly when no inserted key strictly extends the
path. -/
def TrieInv (done : List (List String)) (f : Forest) : Prop :=
  (∀ p, (followF f p).isSome ↔ (p = [] ∨ ∃ q ∈ done, p <+: q)) ∧
  (∀ p u, followF f p = some u → (u = .nil ↔ ¬ ∃ q ∈ done, p <+: q ∧ p ≠ q))

/-! ## Remote Repository Gateway

The repository treats the Hugging Face SDK as an external collaborator;
its operations are modelled as oracle results supplied in an environment
record, and every request made is recorded in a call trace. -/

/-- One remote operation requested from the Gateway. -/
inductive GatewayCall where
  | authenticate (token : String)
  | listRepoFiles (repoId : String)
  | createRepo (repoId : String) (existOk : Bool)
  | uploadFolder (repoId folderPath pathInRepo : String)
  | uploadFile (repoId filePath pathInRepo : String)
deriving DecidableEq, Repr

/-- Outcome of a `create_repo` request at the remote service. -/
inductive CreateOutcome where
  | created
  | alreadyExists
  | otherError (msg : String)
deriving DecidableEq, Repr

/-- The Gateway contract for `create_repo`: with `exist_ok=True` the SDK
treats an already-existing repository as success; without it, the
conflict surfaces as an error.  Any other failure is an error either
way. -/
def createRepoResult (existOk : Bool) : CreateOutcome → Except String Unit
  | .created => .ok ()
  | .alreadyExists =>
    if existOk then .ok () else .error "You already created this repo"
  | .otherError e => .error e

/-! ## Log messages

The exact strings the code logs and returns (f-strings spelled out as
concatenation; the wall-clock timestamp prefix of `appBUENA.py`'s `log`
is elided). -/

def tokenRequiredMsg : String := "❌ Hugging Face Token is required."

def authOkMsg : String := "✅ Authenticated successfully!"

def authFailMsg (e : String) : String := "❌ Authentication failed: " ++ e

def repoExistsMsg (repoId : String) : String :=
  "✅ Repository '" ++ repoId ++ "' exists. Proceeding with upload..."

def repoMissingMsg (repoId : String) : String :=
  "❌ Repository '" ++ repoId ++ "' does not exist. Creating it..."

def repoMissingMsg34 (repoId : String) : String :=
  "❌ Repository '" ++ repoId ++ "' does not exist, creating it..."

def repoCreatedMsg (repoId : String) : String :=
  "✅ Created new repository: '" ++ repoId ++ "'."

def repoCreateFailMsg (repoId e : String) : String :=
  "❌ Failed to create repository '" ++ repoId ++ "': " ++ e

def deletedMsg (target : String) : String := "🗑️ Deleted '" ++ target ++ "'."

def deleteFailMsg (target e : String) : String :=
  "❌ Failed to delete '" ++ target ++ "': " ++ e

def uploadingMsg (folderPath target repoId : String) : String :=
  "🚀 Uploading folder '" ++ folderPath ++ "' to '" ++ target ++
    "' in repository '" ++ repoId ++ "'..."

def uploadDoneMsg (folderPath : String) : String :=
  "✅ Upload completed for '" ++ folderPath ++ "'!"

def uploadFailMsg (folderPath e : String) : String :=
  "❌ Upload failed for '" ++ folderPath ++ "': " ++ e

def pathMissingMsg (folderPath : String) : String :=
  "❌ The folder path '" ++ folderPath ++ "' does not exist."

def uploadedFolderMsg (itemPath : String) : String :=
  "✅ Uploaded folder '" ++ itemPath ++ "'."

def uploadedEntireMsg : String := "✅ Uploaded the entire folder."

def cancelledMsg : String := "❌ Upload has been cancelled."

def completedMsg : String := "🚀 Upload completed. Check the logs for details."

def invalidRepoMsg : String :=
  "❌ Repository ID must be in the format 'username/repo-name'."

def invalidRepoAbortMsg : String :=
  "❌ Invalid repository ID format. Upload aborted."

def repoTokenRequiredMsg : String :=
  "❌ Repository ID and Hugging Face Token are required."

def noFilesMsg (folderPath : String) : String :=
  "⚠️ No files to upload in '" ++ folderPath ++ "'. Skipping..."

def noFilesAfterFilterMsg (folderPath : String) : String :=
  "⚠️ No files to upload in '" ++ folderPath ++
    "' after applying ignore patterns. Skipping..."

def emptyFolderMsg : String := "❌ The folder is empty. No files to upload."

def folderRequiredMsg : String := "❌ Folder Path is required."

def repoRequiredMsg : String := "❌ Repository ID is required."

def invalidRepoFormatMsg : String := "❌ Invalid Repository ID format."

def startedMsg : String := "🚀 Upload initiated. Check the logs for progress."

def busyWarningMsg : String := "🚀 Upload is already in progress."

/-- Does a message carry the code's error marker `❌` up front?  The
code itself classifies log lines by this marker (`app2.py`'s `log`
dispatches error notifications on it, `InfiniteStorageFace.py`'s
`upload_process` aborts on `"❌" in message`). -/
def isErrorMsg (m : String) : Bool :=
  match m.data with
  | [] => false
  | c :: _ => c == '❌'

/-! ## Repository id validation

`REPO_ID_REGEX = ^[a-zA-Z0-9\-_.]+/[a-zA-Z0-9\-_.]+$` shared by
`app2.py`, `app3.py`, `app4.py`, `InfiniteStorageFace.py` and
`streamlit_app.py`. -/

/-- A character of the class `[a-zA-Z0-9\-_.]`. -/
def repoIdChar (c : Char) : Bool :=
  c.isAlpha || c.isDigit || c == '-' || c == '_' || c == '.'

/-- Does the whole character list match `[class]+/[class]+`?  The class
excludes `/`, so exactly the two-part split qualifies. -/
def validRepoIdCore (cs : List Char) : Bool :=
  match splitSlash cs with
  | [a, b] => !a.isEmpty && !b.isEmpty && a.all repoIdChar && b.all repoIdChar
  | _ => false

/-- Python's `$` also matches just before one trailing newline. -/
def dropTrailingNewline (cs : List Char) : List Char :=
  match cs.reverse with
  | '\n' :: rest => rest.reverse
  | _ => cs

/-- `validate_repo_id`: nonempty and matched by `REPO_ID_REGEX`. -/
def validRepoId (repoId : String) : Bool :=
  !(repoId = "") && validRepoIdCore (dropTrailingNewline repoId.data)

/-! ## `appBUENA.py` — the upload orchestrator

The environment bundles the oracle outcomes of the remote and local
operations one run observes.  The cancellation flag is reset to `False`
on entry of `upload_files` and can be set (once, monotonically) by a
concurrent `cancel_upload`; a run's reads of the flag therefore observe
`false` up to some read and `true` from then on.  The schedule is
modelled by an optional countdown: `some k` means the k-th read of the
flag (0-based, counting the per-item reads and the final read) is the
first to observe `true`, `none` that no read ever does. -/

structure BEnv where
  /-- Result of `login(token)`. -/
  auth : Except String Unit
  /-- Does `api.list_repo_files` succeed (repository exists)? -/
  listFilesOk : Bool
  /-- Outcome of `create_repo` at the service. -/
  createOutcome : CreateOutcome
  /-- Result of `upload_folder`, keyed by the local folder uploaded. -/
  upload : String → Except String Unit
  /-- `os.path.isdir(folder_path)`. -/
  isdir : Bool
  /-- `os.path.exists` for the cleanup targets. -/
  dirExists : String → Bool
  /-- Result of `shutil.rmtree`, keyed by the target. -/
  rmtree : String → Except String Unit

/-- Is the current flag read the first to observe `true`? -/
def cancelSeen : Option Nat → Bool
  | some 0 => true
  | _ => false

/-- Advance the cancellation schedule past one read. -/
def cancelTick : Option Nat → Option Nat
  | none => none
  | some 0 => some 0
  | some (n + 1) => some n

/-- Result and side effects of one helper step: success flag, returned
message, Log Sink lines written, Gateway calls made. -/
structure StepResult where
  ok : Bool
  msg : String
  shared : List String
  calls : List GatewayCall

/-- `authenticate(token)` of `appBUENA.py` and `app4.py`: empty token is
rejected locally; otherwise `login` is called and its exception, if any,
is reported. -/
def authenticateB (token : String) (auth : Except String Unit) : StepResult :=
  if token = "" then ⟨false, tokenRequiredMsg, [tokenRequiredMsg], []⟩
  else
    match auth with
    | .ok _ => ⟨true, authOkMsg, [authOkMsg], [.authenticate token]⟩
    | .error e => ⟨false, authFailMsg e, [authFailMsg e], [.authenticate token]⟩

/-- `create_repo_if_not_exists` of `appBUENA.py`: probe existence via
`list_repo_files`; on failure create the repository with
`exist_ok=True`, so a concurrent "already exists" conflict is success;
any other creation failure is reported as failure. -/
def createRepoIfNotExistsB (repoId : String) (listFilesOk : Bool)
    (co : CreateOutcome) : StepResult :=
  if listFilesOk then
    ⟨true, repoExistsMsg repoId, [repoExistsMsg repoId], [.listRepoFiles repoId]⟩
  else
    match createRepoResult true co with
    | .ok _ =>
      ⟨true, repoCreatedMsg repoId,
        [repoMissingMsg repoId, repoCreatedMsg repoId],
        [.listRepoFiles repoId, .createRepo repoId true]⟩
    | .error e =>
      ⟨false, repoCreateFailMsg repoId e,
        [repoMissingMsg repoId, repoCreateFailMsg repoId e],
        [.listRepoFiles repoId, .createRepo repoId true]⟩

/-- Python `str.strip(chars)`: drop characters of the set from both
ends. -/
def pyStrip (s : String) (chars : List Char) : String :=
  String.mk (((s.data.dropWhile (fun c => chars.contains c)).reverse.dropWhile
      (fun c => chars.contains c)).reverse)

/-- `cleanup_before_upload` of `appBUENA.py`: for each ignore pattern,
derive a folder name by stripping `/` and `*` from the pattern's ends
(`pattern.strip("/**")`) and delete `folder_path/<name>` if it exists.
Local filesystem mutation and Log Sink lines only — no Gateway call. -/
def cleanupBeforeUpload (folderPath : String) (patterns : List String)
    (env : BEnv) : List String :=
  patterns.flatMap (fun pat =>
    let target := folderPath ++ "/" ++ pyStrip pat ['/', '*']
    if env.dirExists target then
      match env.rmtree target with
      | .ok _ => [deletedMsg target]
      | .error e => [deleteFailMsg target e]
    else [])

/-- `upload_folder_structure` of `appBUENA.py`: cleanup, log the start
message, call the Gateway's `upload_folder`, log success or failure.
The `except` clause swallows the error — the function never
propagates it. -/
def uploadFolderStructureB (folderPath repoId target : String)
    (patterns : List String) (env : BEnv) : List String × List GatewayCall :=
  let pre := cleanupBeforeUpload folderPath patterns env ++
    [uploadingMsg folderPath target repoId]
  match env.upload folderPath with
  | .ok _ =>
    (pre ++ [uploadDoneMsg folderPath], [.uploadFolder repoId folderPath target])
  | .error e =>
    (pre ++ [uploadFailMsg folderPath e], [.uploadFolder repoId folderPath target])

/-- State accumulated by the `process_individually` loop of
`upload_files`: Log Sink lines, the local `logs` list, Gateway calls,
whether the loop returned on a cancellation read, and the remaining
cancellation schedule. -/
structure LoopOut where
  shared : List String
  result : List String
  calls : List GatewayCall
  cancelled : Bool
  cd : Option Nat
deriving DecidableEq, Repr

/-- The `for item in os.listdir(folder_path)` loop of `upload_files`
(`appBUENA.py`, `process_individually=True`).  `items` is the listing as
(name, is-directory) pairs.  Each iteration first reads the cancellation
flag — if set, it logs the cancellation and returns; then a directory
item is uploaded as its own unit and recorded as uploaded
(unconditionally — the upload error, if any, was swallowed one level
down); non-directory items are skipped entirely. -/
def uploadLoopB (repoId targetPath folderPath : String) (patterns : List String)
    (env : BEnv) : List (String × Bool) → Option Nat → LoopOut
  | [], cd => ⟨[], [], [], false, cd⟩
  | (name, isDir) :: rest, cd =>
    if cancelSeen cd then ⟨[cancelledMsg], [cancelledMsg], [], true, cd⟩
    else if isDir then
      let itemPath := folderPath ++ "/" ++ name
      let (sh, cs) := uploadFolderStructureB itemPath repoId
        (targetPath ++ "/" ++ name) patterns env
      let r := uploadLoopB repoId targetPath folderPath patterns env rest
        (cancelTick cd)
      ⟨sh ++ uploadedFolderMsg itemPath :: r.shared,
       uploadedFolderMsg itemPath :: r.result,
       cs ++ r.calls, r.cancelled, r.cd⟩
    else
      uploadLoopB repoId targetPath folderPath patterns env rest (cancelTick cd)

/-- `target_path = subfolder.replace("\\", "/") if subfolder else ""`. -/
def targetPathOf (subfolder : String) : String :=
  if subfolder = "" then ""
  else String.mk (subfolder.data.map (fun c => if c = '\\' then '/' else c))

/-- Outcome of one `upload_files` run of `appBUENA.py`: the Log Sink
lines, the local `logs` list whose join is the returned status, and the
Gateway call trace. -/
structure RunB where
  shared : List String
  result : List String
  calls : List GatewayCall
deriving DecidableEq, Repr

/-- `upload_files` of `appBUENA.py`.  Resets the cancellation flag,
authenticates, ensures the repository (both before validating the
folder path), maps the selected ignore patterns (`patterns` is the
mapped list), then either uploads each first-level directory as its own
unit or the whole tree, and finally re-reads the cancellation flag
before reporting completion. -/
def uploadFilesBUENA (folderPath repoId token subfolder : String)
    (processIndividually : Bool) (patterns : List String)
    (items : List (String × Bool)) (env : BEnv) (cd : Option Nat) : RunB :=
  let a := authenticateB token env.auth
  if !a.ok then ⟨a.shared, [a.msg], a.calls⟩
  else
    let rp := createRepoIfNotExistsB repoId env.listFilesOk env.createOutcome
    if !rp.ok then
      ⟨a.shared ++ rp.shared, [a.msg, rp.msg], a.calls ++ rp.calls⟩
    else
      let target := targetPathOf subfolder
      if !env.isdir then
        ⟨a.shared ++ rp.shared ++ [pathMissingMsg folderPath],
         [a.msg, rp.msg, pathMissingMsg folderPath],
         a.calls ++ rp.calls⟩
      else if processIndividually then
        let r := uploadLoopB repoId target folderPath patterns env items cd
        if r.cancelled then
          ⟨a.shared ++ rp.shared ++ r.shared, [a.msg, rp.msg] ++ r.result,
           a.calls ++ rp.calls ++ r.calls⟩
        else if cancelSeen r.cd then
          ⟨a.shared ++ rp.shared ++ r.shared ++ [cancelledMsg],
           [a.msg, rp.msg] ++ r.result ++ [cancelledMsg],
           a.calls ++ rp.calls ++ r.calls⟩
        else
          ⟨a.shared ++ rp.shared ++ r.shared ++ [completedMsg],
           [a.msg, rp.msg] ++ r.result ++ [completedMsg],
           a.calls ++ rp.calls ++ r.calls⟩
      else
        let (sh, cs) := uploadFolderStructureB folderPath repoId target patterns env
        if cancelSeen cd then
          ⟨a.shared ++ rp.shared ++ sh ++ [uploadedEntireMsg, cancelledMsg],
           [a.msg, rp.msg, uploadedEntireMsg, cancelledMsg],
           a.calls ++ rp.calls ++ cs⟩
        else
          ⟨a.shared ++ rp.shared ++ sh ++ [uploadedEntireMsg, completedMsg],
           [a.msg, rp.msg, uploadedEntireMsg, completedMsg],
           a.calls ++ rp.calls ++ cs⟩

/-! ## `app4.py` -/

/-- `create_repo_if_not_exists` of `app4.py` and `app3.py` (identical
logic; the missing-repository log line differs from `appBUENA.py` only
by punctuation). -/
def createRepoIfNotExists34 (repoId : String) (listFilesOk : Bool)
    (co : CreateOutcome) : StepResult :=
  if listFilesOk then
    ⟨true, repoExistsMsg repoId, [repoExistsMsg repoId], [.listRepoFiles repoId]⟩
  else
    match createRepoResult true co with
    | .ok _ =>
      ⟨true, repoCreatedMsg repoId,
        [repoMissingMsg34 repoId, repoCreatedMsg repoId],
        [.listRepoFiles repoId, .createRepo repoId true]⟩
    | .error e =>
      ⟨false, repoCreateFailMsg repoId e,
        [repoMissingMsg34 repoId, repoCreateFailMsg repoId e],
        [.listRepoFiles repoId, .createRepo repoId true]⟩

/-- `has_files_to_upload` of `app4.py` over the relative file paths its
`os.walk` traversal examines (the walk's directory pruning only shrinks
that list; the list is the model's input): true iff some file survives
every ignore pattern; `none` models an ignore pattern whose regex fails
to compile, which raises. -/
def hasFilesToUpload : List String → List String → Option Bool
  | [], _ => some false
  | f :: fs, pats =>
    match pyExcluded pats f with
    | none => none
    | some true => hasFilesToUpload fs pats
    | some false => some true

/-- Oracle environment of one `app4.py` run. -/
structure App4Env where
  auth : Except String Unit
  listFilesOk : Bool
  createOutcome : CreateOutcome
  upload : Except String Unit
  isdir : Bool
  listdirNonempty : Bool

/-- Outcome of one `upload_files` run of `app4.py`/`app3.py`: the
returned status (`none` models Python's bare `return`, i.e. `None`),
the Log Sink lines, and the Gateway calls. -/
structure Run4 where
  ack : Option String
  shared : List String
  calls : List GatewayCall
deriving DecidableEq, Repr

/-- `upload_files` of `app4.py`: cancellation check, local validations
(folder exists, repository id shape plus token, non-empty listing), then
authenticate, ensure repository, and a single whole-tree
`upload_folder` whose failure is swallowed (the completion message is
returned either way). -/
def uploadFiles4 (folderPath repoId token subfolder : String)
    (env : App4Env) (cancelSet : Bool) : Run4 :=
  if cancelSet then ⟨some cancelledMsg, [cancelledMsg], []⟩
  else if !env.isdir then
    ⟨some (pathMissingMsg folderPath), [pathMissingMsg folderPath], []⟩
  else if !(validRepoId repoId) then
    ⟨some repoTokenRequiredMsg, [invalidRepoMsg], []⟩
  else if token = "" then ⟨some repoTokenRequiredMsg, [], []⟩
  else if !env.listdirNonempty then ⟨none, [noFilesMsg folderPath], []⟩
  else
    let a := authenticateB token env.auth
    if !a.ok then ⟨some a.msg, a.shared, a.calls⟩
    else
      let rp := createRepoIfNotExists34 repoId env.listFilesOk env.createOutcome
      if !rp.ok then ⟨some rp.msg, a.shared ++ rp.shared, a.calls ++ rp.calls⟩
      else
        let target := targetPathOf subfolder
        match env.upload with
        | .ok _ =>
          ⟨some completedMsg,
           a.shared ++ rp.shared ++
             [uploadingMsg folderPath target repoId, uploadDoneMsg folderPath],
           a.calls ++ rp.calls ++ [.uploadFolder repoId folderPath target]⟩
        | .error e =>
          ⟨some completedMsg,
           a.shared ++ rp.shared ++
             [uploadingMsg folderPath target repoId, uploadFailMsg folderPath e],
           a.calls ++ rp.calls ++ [.uploadFolder repoId folderPath target]⟩

/-- `upload_single_folder` of `app4.py` with its built-in minimal ignore
pattern list `["**/.DS_Store"]`.  `files` is the list of relative file
paths its `has_files_to_upload` walk examines.  `none` models an
uncaught `re.error` escaping from the filter (impossible for the
built-in pattern). -/
def uploadSingleFolder (files : List String)
    (folderPath repoId pathInRepo : String) (isdir : Bool)
    (upload : Except String Unit) :
    Option (List String × List GatewayCall) :=
  if !(validRepoId repoId) then some ([invalidRepoMsg, invalidRepoAbortMsg], [])
  else if !isdir then some ([pathMissingMsg folderPath], [])
  else
    match hasFilesToUpload files ["**/.DS_Store"] with
    | none => none
    | some false => some ([noFilesAfterFilterMsg folderPath], [])
    | some true =>
      match upload with
      | .ok _ =>
        some ([uploadingMsg folderPath pathInRepo repoId,
          uploadDoneMsg folderPath],
          [.uploadFolder repoId folderPath pathInRepo])
      | .error e =>
        some ([uploadingMsg folderPath pathInRepo repoId,
          uploadFailMsg folderPath e],
          [.uploadFolder repoId folderPath pathInRepo])

/-! ## `app3.py` -/

/-- `authenticate(token)` of `app3.py`: unlike the other variants, the
empty-token rejection does not write to the Log Sink. -/
def authenticate3 (token : String) (auth : Except String Unit) : StepResult :=
  if token = "" then ⟨false, tokenRequiredMsg, [], []⟩
  else
    match auth with
    | .ok _ => ⟨true, authOkMsg, [authOkMsg], [.authenticate token]⟩
    | .error e => ⟨false, authFailMsg e, [authFailMsg e], [.authenticate token]⟩

/-- Oracle environment of one `app3.py` run. -/
structure App3Env where
  auth : Except String Unit
  listFilesOk : Bool
  createOutcome : CreateOutcome
  upload : Except String Unit
  isdir : Bool
  scandirNonempty : Bool

def startingUploadMsg : String := "🚀 Starting upload process..."

def uploadCompleted3Msg : String := "✅ Upload completed successfully!"

def uploadFailed3Msg (e : String) : String := "❌ Upload failed: " ++ e

/-- `upload_files` of `app3.py`.  Validations run on the caller's
thread; the upload process itself runs on a worker thread under the
process-wide lock and is modelled synchronously (run to completion).
Note the worker's acknowledgement to the caller is always the started
message once validations pass. -/
def uploadFiles3 (folderPath repoId token subfolder : String)
    (env : App3Env) (cancelSet : Bool) : Run4 :=
  if cancelSet then ⟨some cancelledMsg, [cancelledMsg], []⟩
  else if !env.isdir then
    ⟨some (pathMissingMsg folderPath), [pathMissingMsg folderPath], []⟩
  else if !(validRepoId repoId) then
    ⟨some repoTokenRequiredMsg, [invalidRepoMsg], []⟩
  else if token = "" then ⟨some repoTokenRequiredMsg, [], []⟩
  else if !env.scandirNonempty then ⟨some emptyFolderMsg, [emptyFolderMsg], []⟩
  else
    let a := authenticate3 token env.auth
    if !a.ok then ⟨some startedMsg, a.shared, a.calls⟩
    else
      let rp := createRepoIfNotExists34 repoId env.listFilesOk env.createOutcome
      if !rp.ok then ⟨some startedMsg, a.shared ++ rp.shared, a.calls ++ rp.calls⟩
      else
        let targetRepoId := if subfolder = "" then repoId
          else repoId ++ "/" ++ pyStrip subfolder ['/']
        match env.upload with
        | .ok _ =>
          ⟨some startedMsg,
           a.shared ++ rp.shared ++ [startingUploadMsg, uploadCompleted3Msg],
           a.calls ++ rp.calls ++ [.uploadFolder targetRepoId folderPath ""]⟩
        | .error e =>
          ⟨some startedMsg,
           a.shared ++ rp.shared ++ [startingUploadMsg, uploadFailed3Msg e],
           a.calls ++ rp.calls ++ [.uploadFolder targetRepoId folderPath ""]⟩

/-! ## `InfiniteStorageFace.py` -/

/-- Oracle environment of one `InfiniteStorageFace.py` run. -/
structure ISFEnv where
  auth : Except String Unit
  listFilesOk : Bool
  createOutcome : CreateOutcome
  upload : Except String Unit
  isdir : Bool

def startedISFMsg : String := "🚀 Upload initiated. Check the Logs tab for progress."

def uploadStartISFMsg : String := "🚀 Initiating upload..."

def uploadBackgroundMsg : String :=
  "🔄 Upload started in the background. You can continue using the app."

def uploadCompletedISFMsg : String := "✅ Upload completed successfully!"

def uploadFailedISFMsg (e : String) : String := "❌ Upload failed: " ++ e

/-- `create_repo_if_not_exists` of `InfiniteStorageFace.py`: empty-id
guard, existence probe, silent fall-through to creation (no
missing-repository log line); the caller treats a message carrying `❌`
as failure, modelled by the `ok` flag. -/
def createRepoIfNotExistsISF (repoId : String) (listFilesOk : Bool)
    (co : CreateOutcome) : StepResult :=
  if repoId = "" then ⟨false, repoRequiredMsg, [repoRequiredMsg], []⟩
  else if listFilesOk then
    ⟨true, repoExistsMsg repoId, [repoExistsMsg repoId], [.listRepoFiles repoId]⟩
  else
    match createRepoResult true co with
    | .ok _ =>
      ⟨true, repoCreatedMsg repoId, [repoCreatedMsg repoId],
        [.listRepoFiles repoId, .createRepo repoId true]⟩
    | .error e =>
      ⟨false, repoCreateFailMsg repoId e, [repoCreateFailMsg repoId e],
        [.listRepoFiles repoId, .createRepo repoId true]⟩

/-- `upload_files` of `InfiniteStorageFace.py`.  The very first
statement reads the cancellation flag and, if set, returns the
cancellation message without validating or dispatching anything.  The
upload process runs on a worker thread, modelled synchronously at the
schedule where the progress monitor observes no cancellation (the
monitor only shapes log lines; a transfer handed to the Gateway is not
interrupted).  Returns the acknowledgement, the log lines, and the
Gateway calls made on the job's behalf. -/
def uploadFilesISF (cancelSet : Bool) (folderPath repoId token : String)
    (env : ISFEnv) : String × List String × List GatewayCall :=
  if cancelSet then (cancelledMsg, [cancelledMsg], [])
  else if folderPath = "" then (folderRequiredMsg, [folderRequiredMsg], [])
  else if !env.isdir then
    (pathMissingMsg folderPath, [pathMissingMsg folderPath], [])
  else if repoId = "" then (repoRequiredMsg, [repoRequiredMsg], [])
  else if !(validRepoId repoId) then (invalidRepoFormatMsg, [invalidRepoMsg], [])
  else if token = "" then (tokenRequiredMsg, [tokenRequiredMsg], [])
  else
    let a := authenticateB token env.auth
    if !a.ok then (startedISFMsg, a.shared, a.calls)
    else
      let rp := createRepoIfNotExistsISF repoId env.listFilesOk env.createOutcome
      if !rp.ok then (startedISFMsg, a.shared ++ rp.shared, a.calls ++ rp.calls)
      else
        match env.upload with
        | .ok _ =>
          (startedISFMsg,
           a.shared ++ rp.shared ++
             [uploadStartISFMsg, uploadBackgroundMsg, uploadCompletedISFMsg],
           a.calls ++ rp.calls ++ [.uploadFolder repoId folderPath ""])
        | .error e =>
          (startedISFMsg,
           a.shared ++ rp.shared ++
             [uploadStartISFMsg, uploadBackgroundMsg, uploadFailedISFMsg e],
           a.calls ++ rp.calls ++ [.uploadFolder repoId folderPath ""])

/-- One operation against the process-wide cancellation flag of
`InfiniteStorageFace.py`: a submission through `upload_files` (with the
job inputs and the environment oracle that run observes) or the
operator's `cancel_upload`. -/
inductive ISFOp where
  | submit (folderPath repoId token : String) (env : ISFEnv)
  | cancel

/-- Run a sequence of operations against the process-wide cancellation
flag: `upload_files` reads but never writes the flag, `cancel_upload`
sets it, and no operation ever clears it.  Returns the final flag and,
for each submission, its acknowledgement and Gateway calls. -/
def runISF : Bool → List ISFOp → Bool × List (String × List GatewayCall)
  | flag, [] => (flag, [])
  | flag, .submit folderPath repoId token env :: ops =>
    let r := uploadFilesISF flag folderPath repoId token env
    let rest := runISF flag ops
    (rest.1, (r.1, r.2.2) :: rest.2)
  | _, .cancel :: ops => runISF true ops

/-! ## `app2.py` -/

/-- Oracle environment of one `app2.py` run. -/
structure App2Env where
  auth : Except String Unit
  createOutcome : CreateOutcome
  upload : Except String Unit
  isdir : Bool

/-- `upload_files` of `app2.py`.  The acknowledgement is computed and
returned before any interaction with the process-wide `upload_lock`:
mutual exclusion is enforced only inside the spawned worker
(`upload_process` opens with `with upload_lock:`), so a submission made
while another run holds the lock is not rejected — its worker is
spawned and queues on the lock.  `lockHeld` (is another run active?) is
an observation the submission path never reads.  The triple returned is
the acknowledgement, whether a worker thread was spawned (queued work),
and the Gateway calls that worker makes once it acquires the lock
(`app2.py` creates the repository directly with `exist_ok=True`, with
no existence probe).  Log Sink lines are elided here; the claims about
this variant concern the acknowledgement, queuing, and Gateway calls. -/
def uploadFiles2 (lockHeld cancelSet : Bool) (folderPath repoId token : String)
    (env : App2Env) : String × Bool × List GatewayCall :=
  if cancelSet then (cancelledMsg, false, [])
  else if folderPath = "" then (folderRequiredMsg, false, [])
  else if !env.isdir then (pathMissingMsg folderPath, false, [])
  else if repoId = "" then (repoRequiredMsg, false, [])
  else if !(validRepoId repoId) then (invalidRepoMsg, false, [])
  else if token = "" then (tokenRequiredMsg, false, [])
  else
    let workerCalls :=
      match env.auth with
      | .error _ => [GatewayCall.authenticate token]
      | .ok _ =>
        match createRepoResult true env.createOutcome with
        | .error _ => [GatewayCall.authenticate token, .createRepo repoId true]
        | .ok _ => [GatewayCall.authenticate token, .createRepo repoId true,
            .uploadFolder repoId folderPath ""]
    (startedMsg, true, workerCalls)

/-! ## `streamlit_app.py` -/

/-- Oracle environment of one `streamlit_app.py` run. -/
structure StEnv where
  auth : Except String Unit
  listFilesOk : Bool
  createOutcome : CreateOutcome
  uploadFile : String → Except String Unit
  isdir : Bool
  isabs : Bool
  scandirNonempty : Bool

def absPathRequiredMsg : String := "❌ Please provide an absolute folder path."

/-- `create_repo_if_not_exists` of `streamlit_app.py`: existence probe,
silent fall-through to creation (no missing-repository log line). -/
def createRepoIfNotExistsSt (repoId : String) (listFilesOk : Bool)
    (co : CreateOutcome) : StepResult :=
  if listFilesOk then
    ⟨true, repoExistsMsg repoId, [repoExistsMsg repoId], [.listRepoFiles repoId]⟩
  else
    match createRepoResult true co with
    | .ok _ =>
      ⟨true, repoCreatedMsg repoId, [repoCreatedMsg repoId],
        [.listRepoFiles repoId, .createRepo repoId true]⟩
    | .error e =>
      ⟨false, repoCreateFailMsg repoId e, [repoCreateFailMsg repoId e],
        [.listRepoFiles repoId, .createRepo repoId true]⟩

/-- The per-file upload loop of `streamlit_app.py`'s `upload_process`,
modelled at the schedule where no cancellation is observed: each file is
sent through `upload_file`, successes advance the counter, failures are
logged and the loop continues. -/
def stLoop (repoId folderPath subfolder : String) (env : StEnv) :
    List String → Nat → Nat → List String × List GatewayCall
  | [], _, _ => ([], [])
  | rel :: rest, uploaded, total =>
    let repoPath := if subfolder = "" then rel else subfolder ++ "/" ++ rel
    let call := GatewayCall.uploadFile repoId (folderPath ++ "/" ++ rel) repoPath
    match env.uploadFile rel with
    | .ok _ =>
      let r := stLoop repoId folderPath subfolder env rest (uploaded + 1) total
      (("✅ Uploaded: " ++ rel ++ " (" ++ toString (uploaded + 1) ++ "/" ++
          toString total ++ ")") :: r.1,
       call :: r.2)
    | .error e =>
      let r := stLoop repoId folderPath subfolder env rest uploaded total
      (("❌ Failed to upload " ++ rel ++ ": " ++ e) :: r.1, call :: r.2)

/-- `upload_files` of `streamlit_app.py`: validations (the path is
taken as already normalized; `os.path.normpath` is a local string
operation), then the worker thread's upload process modelled
synchronously.  The final elapsed-time log line is elided (wall-clock
datum).  `files` is the relative-path listing of the `os.walk`. -/
def uploadFilesSt (cancelSet : Bool)
    (folderPath repoId token subfolder : String) (files : List String)
    (env : StEnv) : String × List String × List GatewayCall :=
  if cancelSet then (cancelledMsg, [cancelledMsg], [])
  else if folderPath = "" then (folderRequiredMsg, [folderRequiredMsg], [])
  else if !env.isabs then (absPathRequiredMsg, [absPathRequiredMsg], [])
  else if !env.isdir then
    (pathMissingMsg folderPath, [pathMissingMsg folderPath], [])
  else if repoId = "" then (repoRequiredMsg, [repoRequiredMsg], [])
  else if !(validRepoId repoId) then (invalidRepoMsg, [invalidRepoMsg], [])
  else if token = "" then (tokenRequiredMsg, [tokenRequiredMsg], [])
  else if !env.scandirNonempty then (emptyFolderMsg, [emptyFolderMsg], [])
  else
    let a := authenticateB token env.auth
    if !a.ok then (startedMsg, a.shared, a.calls)
    else
      let rp := createRepoIfNotExistsSt repoId env.listFilesOk env.createOutcome
      if !rp.ok then (startedMsg, a.shared ++ rp.shared, a.calls ++ rp.calls)
      else
        let r := stLoop repoId folderPath subfolder env files 0 files.length
        (startedMsg, a.shared ++ rp.shared ++ startingUploadMsg :: r.1,
         a.calls ++ rp.calls ++ r.2)

/-- The submit handling of `main` in `streamlit_app.py`: a click while
`st.session_state.uploading` is true only shows the
already-in-progress warning and never calls `upload_files`; otherwise
the logs are cleared, the cancellation event is cleared, and
`upload_files` runs. -/
def mainSubmitSt (uploading : Bool)
    (folderPath repoId token subfolder : String) (files : List String)
    (env : StEnv) : String × List String × List GatewayCall :=
  if uploading then (busyWarningMsg, [], [])
  else uploadFilesSt false folderPath repoId token subfolder files env

/-! ## Theorems: path filter (claim C3) -/

/-- A pattern of literal characters compiles to the corresponding
sequence of unstarred literal atoms. -/
theorem compileRe_literal (l : List Char) (h : ∀ c ∈ l, isLiteralChar c = true) :
    compileRe l = some (l.map (fun c => (RAtom.lit c, false))) := by
  induction l with
  | nil => rfl
  | cons c rest ih =>
    have hc := h c (List.mem_cons_self ..)
    have hstar : (c == '*') = false := by
      simp only [isLiteralChar, Bool.not_eq_true', Bool.or_eq_false_iff] at hc
      exact hc.2
    have hmeta : isRegexMeta c = false := by
      simp only [isLiteralChar, Bool.not_eq_true', Bool.or_eq_false_iff] at hc
      exact hc.1.1
    have hdot : (c == '.') = false := by
      simp only [isLiteralChar, Bool.not_eq_true', Bool.or_eq_false_iff] at hc
      exact hc.1.2
    have hatom : charAtom c = RAtom.lit c := by simp [charAtom, hdot]
    cases rest with
    | nil => simp [compileRe, hstar, hmeta, hatom]
    | cons d rest' =>
      have hd := h d (by simp)
      have hdstar : (d == '*') = false := by
        simp only [isLiteralChar, Bool.not_eq_true', Bool.or_eq_false_iff] at hd
        exact hd.2
      have ih' := ih (fun x hx => h x (List.mem_cons_of_mem _ hx))
      simp [compileRe, hstar, hmeta, hatom, hdstar, ih']

/-- A sequence of unstarred literal atoms matches (in the `re.match`
sense) exactly the strings it is a prefix of. -/
theorem reMatch_literal (l s : List Char) :
    reMatch (l.map (fun c => (RAtom.lit c, false))) s = l.isPrefixOf s := by
  induction l generalizing s with
  | nil => simp [reMatch, matchSuffixes, List.isPrefixOf]
  | cons c rest ih =>
    cases s with
    | nil => simp [reMatch, matchSuffixes, List.isPrefixOf]
    | cons d s' =>
      by_cases hcd : (c == d) = true
      · simp [reMatch, matchSuffixes, atomMatch, List.isPrefixOf, hcd, ← ih]
      · simp only [Bool.not_eq_true] at hcd
        simp [reMatch, matchSuffixes, atomMatch, List.isPrefixOf, hcd]

/-- **C3, counterexample.**  The claim states the filter excludes a path
exactly when a pattern matches it under segment-boundary semantics, and
in particular that the wildcard-free pattern `log` does not exclude
`logger.txt`.  On the code the filter does exclude `logger.txt` under
pattern set `{log}`, although no pattern matches it at a segment
boundary. -/
theorem path_filter_segment_boundary_cex :
    pyExcluded ["log"] "logger.txt" = some true ∧
    specExcluded ["log"] "logger.txt" = false := by
  decide

/-- **C3 (amended).**  The filter matches each pattern, after deleting
every `**/` occurrence, as a Python regular expression anchored at the
start of the path: a wildcard-free pattern excludes exactly the paths it
is a string prefix of (so `log` excludes `logger.txt`), and the pattern
`*.log` is not a valid regular expression — matching it raises an error
instead of filtering. -/
theorem path_filter_regex_prefix (p path : String)
    (h : ∀ c ∈ stripRecMarker p.data, isLiteralChar c = true) :
    pyExcluded [p] path = some ((stripRecMarker p.data).isPrefixOf path.data) ∧
    pyExcluded ["*.log"] path = none := by
  refine ⟨?_, rfl⟩
  have h1 : pyMatchPattern p path =
      some ((stripRecMarker p.data).isPrefixOf path.data) := by
    unfold pyMatchPattern
    rw [compileRe_literal _ h]
    simp [reMatch_literal]
  cases hb : (stripRecMarker p.data).isPrefixOf path.data <;>
    simp [pyExcluded, h1, hb]

/-- Witness for C3 (amended) at pattern `log`, path `logger.txt`. -/
theorem path_filter_regex_prefix_w :
    pyExcluded ["log"] "logger.txt" =
      some ((stripRecMarker "log".data).isPrefixOf "logger.txt".data) ∧
    pyExcluded ["*.log"] "logger.txt" = none :=
  path_filter_regex_prefix "log" "logger.txt" (by decide)

/-! ## Theorems: remote tree round trip (claim C4) -/

theorem lookupF_insertForest_self (p : String) (sub : Forest → Forest) (f : Forest) :
    lookupF (insertForest p sub f) p = some (sub ((lookupF f p).getD .nil)) := by
  induction f with
  | nil => simp [insertForest, lookupF]
  | cons k c rest ihc ihr =>
    by_cases hk : k = p
    · simp [insertForest, lookupF, hk]
    · simp [insertForest, lookupF, hk, ihr]

theorem lookupF_insertForest_ne (p x : String) (h : x ≠ p)
    (sub : Forest → Forest) (f : Forest) :
    lookupF (insertForest p sub f) x = lookupF f x := by
  have hpx : ¬ p = x := fun hpx => h hpx.symm
  induction f with
  | nil => simp [insertForest, lookupF, hpx]
  | cons k c rest ihc ihr =>
    by_cases hk : k = p
    · subst hk
      simp [insertForest, lookupF, hpx]
    · simp [insertForest, lookupF, hk, ihr]

theorem followF_nil_getD (ps : List String) :
    (followF .nil ps).getD .nil = .nil := by
  cases ps <;> simp [followF, lookupF]

theorem followF_insertPath_self (q : List String) (f : Forest) :
    followF (insertPath q f) q = some ((followF f q).getD .nil) := by
  induction q generalizing f with
  | nil => simp [insertPath, followF]
  | cons p ps ih =>
    simp only [insertPath, followF, lookupF_insertForest_self]
    cases hl : lookupF f p with
    | none => simp [ih, followF_nil_getD]
    | some c => simp [ih]

theorem followF_insertPath_unrelated (p q : List String) (f : Forest)
    (h : ¬ p <+: q) : followF (insertPath q f) p = followF f p := by
  induction p generalizing q f with
  | nil => exact absurd (List.nil_prefix) h
  | cons a as ih =>
    cases q with
    | nil => simp [insertPath]
    | cons b bs =>
      by_cases hab : a = b
      · subst hab
        have has : ¬ as <+: bs := fun hp => h (List.cons_prefix_cons.mpr ⟨rfl, hp⟩)
        simp only [insertPath, followF, lookupF_insertForest_self]
        cases hl : lookupF f a with
        | none =>
          cases as with
          | nil => exact absurd (List.nil_prefix) has
          | cons x xs =>
            have h2 : followF (insertPath bs Forest.nil) (x :: xs) =
                followF Forest.nil (x :: xs) := ih bs Forest.nil has
            simp only [followF, lookupF] at h2 ⊢
            exact h2
        | some c => simp [ih _ _ has]
      · simp only [insertPath, followF,
          lookupF_insertForest_ne b a hab (insertPath bs) f]

theorem insertForest_not_nil (p : String) (sub : Forest → Forest) (f : Forest) :
    insertForest p sub f ≠ .nil := by
  cases f with
  | nil => simp [insertForest]
  | cons k c rest =>
    by_cases hk : k = p <;> simp [insertForest, hk]

theorem followF_insertPath_extends (p : List String) (a : String)
    (r : List String) (f : Forest) :
    ∃ u, followF (insertPath (p ++ a :: r) f) p = some u ∧ u ≠ .nil := by
  induction p generalizing f with
  | nil =>
    refine ⟨insertForest a (insertPath r) f, ?_, insertForest_not_nil a _ f⟩
    simp [insertPath, followF]
  | cons b bs ih =>
    simp only [List.cons_append, insertPath, followF, lookupF_insertForest_self]
    exact ih _

theorem self_ne_append_cons (p : List String) (a : String) (r : List String) :
    p ≠ p ++ a :: r := by
  intro h
  have := congrArg List.length h
  simp at this

theorem TrieInv_nil : TrieInv [] .nil := by
  constructor
  · intro p; cases p <;> simp [followF, lookupF]
  · intro p u hu
    cases p with
    | nil =>
      simp only [followF, Option.some.injEq] at hu
      subst hu; simp
    | cons a as => simp [followF, lookupF] at hu

theorem TrieInv_insert {done : List (List String)} {f : Forest} (q : List String)
    (h : TrieInv done f) : TrieInv (done ++ [q]) (insertPath q f) := by
  obtain ⟨h1, h2⟩ := h
  constructor
  · intro p
    by_cases hpq : p <+: q
    · have hsome : (followF (insertPath q f) p).isSome := by
        obtain ⟨r, hr⟩ := hpq
        cases r with
        | nil =>
          rw [List.append_nil] at hr
          subst hr
          rw [followF_insertPath_self]
          rfl
        | cons a r' =>
          subst hr
          obtain ⟨u, hu, _⟩ := followF_insertPath_extends p a r' f
          rw [hu]
          rfl
      exact iff_of_true hsome (Or.inr ⟨q, by simp, hpq⟩)
    · rw [followF_insertPath_unrelated p q f hpq, h1 p]
      simp only [List.mem_append, List.mem_singleton]
      constructor
      · rintro (rfl | ⟨x, hx, hpx⟩)
        · exact Or.inl rfl
        · exact Or.inr ⟨x, Or.inl hx, hpx⟩
      · rintro (rfl | ⟨x, hx | rfl, hpx⟩)
        · exact Or.inl rfl
        · exact Or.inr ⟨x, hx, hpx⟩
        · exact absurd hpx hpq
  · intro p u hu
    by_cases hpq : p <+: q
    · obtain ⟨r, hr⟩ := hpq
      cases r with
      | nil =>
        rw [List.append_nil] at hr
        subst hr
        rw [followF_insertPath_self, Option.some.injEq] at hu
        have hrhs : (∃ x ∈ done ++ [p], p <+: x ∧ p ≠ x) ↔
            (∃ x ∈ done, p <+: x ∧ p ≠ x) := by
          simp only [List.mem_append, List.mem_singleton]
          constructor
          · rintro ⟨x, hx | rfl, hpx, hne⟩
            · exact ⟨x, hx, hpx, hne⟩
            · exact absurd rfl hne
          · rintro ⟨x, hx, hpx, hne⟩
            exact ⟨x, Or.inl hx, hpx, hne⟩
        rw [hrhs]
        cases hf : followF f p with
        | some u₀ =>
          rw [hf] at hu
          simp only [Option.getD_some] at hu
          subst hu
          exact h2 p u₀ hf
        | none =>
          rw [hf] at hu
          simp only [Option.getD_none] at hu
          subst hu
          refine iff_of_true rfl ?_
          rintro ⟨x, hx, hpx, hne⟩
          have : (followF f p).isSome := (h1 p).mpr (Or.inr ⟨x, hx, hpx⟩)
          rw [hf] at this
          exact absurd this (by simp)
      | cons a r' =>
        subst hr
        obtain ⟨u', hu', hne'⟩ := followF_insertPath_extends p a r' f
        rw [hu', Option.some.injEq] at hu
        subst hu
        refine iff_of_false hne' ?_
        intro hno
        exact hno ⟨p ++ a :: r', by simp, ⟨a :: r', rfl⟩,
          self_ne_append_cons p a r'⟩
    · rw [followF_insertPath_unrelated p q f hpq] at hu
      rw [h2 p u hu]
      simp only [List.mem_append, List.mem_singleton]
      constructor
      · intro hno
        rintro ⟨x, hx | rfl, hpx, hne⟩
        · exact hno ⟨x, hx, hpx, hne⟩
        · exact absurd hpx hpq
      · intro hno
        rintro ⟨x, hx, hpx, hne⟩
        exact hno ⟨x, Or.inl hx, hpx, hne⟩

theorem TrieInv_foldl (keyss : List (List String)) :
    ∀ (done : List (List String)) (f : Forest), TrieInv done f →
      TrieInv (done ++ keyss) (keyss.foldl (fun acc q => insertPath q acc) f) := by
  induction keyss with
  | nil =>
    intro done f h
    simpa using h
  | cons q rest ih =>
    intro done f h
    have h' := ih (done ++ [q]) (insertPath q f) (TrieInv_insert q h)
    simpa [List.append_assoc] using h'

theorem TrieInv_buildRemoteTree (keys : List String) :
    TrieInv (keys.map splitKey) (buildRemoteTree keys) := by
  have h := TrieInv_foldl (keys.map splitKey) [] .nil TrieInv_nil
  simpa [buildRemoteTree, List.foldl_map] using h

theorem hasKeyF_insertForest (p x : String) (sub : Forest → Forest) (f : Forest) :
    hasKeyF (insertForest p sub f) x = (hasKeyF f x || p == x) := by
  induction f with
  | nil => simp [insertForest, hasKeyF]
  | cons k c rest ihc ihr =>
    by_cases hk : k = p
    · subst hk
      simp only [insertForest, beq_self_eq_true, if_true, hasKeyF]
      cases hkx : (k == x) <;> simp [hkx]
    · simp [insertForest, hk, hasKeyF, ihr, Bool.or_assoc]

theorem wfF_insertForest (p : String) (sub : Forest → Forest)
    (hsub : ∀ c, wfF c = true → wfF (sub c) = true) :
    ∀ f, wfF f = true → wfF (insertForest p sub f) = true := by
  intro f
  induction f with
  | nil =>
    intro _
    simp [insertForest, wfF, hasKeyF, hsub Forest.nil rfl]
  | cons k c rest ihc ihr =>
    intro hw
    simp only [wfF, Bool.and_eq_true, Bool.not_eq_true'] at hw
    obtain ⟨⟨hk, hc⟩, hr⟩ := hw
    by_cases hkp : k = p
    · subst hkp
      simp [insertForest, wfF, hsub c hc, hr, hk]
    · simp only [insertForest, beq_iff_eq, hkp, if_false, wfF,
        hasKeyF_insertForest, Bool.and_eq_true, Bool.not_eq_true',
        Bool.or_eq_false_iff]
      refine ⟨⟨⟨hk, ?_⟩, hc⟩, ihr hr⟩
      exact beq_eq_false_iff_ne.mpr (fun hpk => hkp hpk.symm)

theorem wfF_insertPath (q : List String) :
    ∀ f, wfF f = true → wfF (insertPath q f) = true := by
  induction q with
  | nil =>
    intro f h
    simpa [insertPath] using h
  | cons p ps ih =>
    intro f h
    exact wfF_insertForest p (insertPath ps) ih f h

theorem wfF_buildRemoteTree (keys : List String) :
    wfF (buildRemoteTree keys) = true := by
  suffices h : ∀ (ks : List String) (f : Forest), wfF f = true →
      wfF (ks.foldl (fun acc k => insertPath (splitKey k) acc) f) = true by
    exact h keys .nil rfl
  intro ks
  induction ks with
  | nil =>
    intro f h
    simpa using h
  | cons k rest ih =>
    intro f h
    exact ih _ (wfF_insertPath (splitKey k) f h)

theorem mem_flattenForest_head (f : Forest) (q : List String)
    (hq : q ∈ flattenForest f) : ∃ k qs, q = k :: qs ∧ hasKeyF f k = true := by
  induction f with
  | nil => simp [flattenForest] at hq
  | cons k c rest ihc ihr =>
    simp only [flattenForest, List.mem_append] at hq
    rcases hq with hq | hq
    · by_cases hc : c.isNil
      · simp only [hc, if_true, List.mem_singleton] at hq
        exact ⟨k, [], hq, by simp [hasKeyF]⟩
      · rw [if_neg hc, List.mem_map] at hq
        obtain ⟨q', _, rfl⟩ := hq
        exact ⟨k, q', rfl, by simp [hasKeyF]⟩
    · obtain ⟨k', qs, rfl, hk⟩ := ihr hq
      exact ⟨k', qs, rfl, by simp [hasKeyF, hk]⟩

theorem nil_not_mem_flattenForest (f : Forest) : [] ∉ flattenForest f := by
  intro h
  obtain ⟨k, qs, heq, _⟩ := mem_flattenForest_head f [] h
  simp at heq

theorem Forest.isNil_iff (c : Forest) : c.isNil = true ↔ c = .nil := by
  cases c <;> simp [Forest.isNil]

theorem flattenForest_cons (k : String) (c rest : Forest) :
    flattenForest (.cons k c rest) =
      (if c.isNil then [[k]] else (flattenForest c).map (fun q => k :: q)) ++
        flattenForest rest := rfl

theorem mem_flattenForest_cons (k : String) (c rest : Forest) (p : List String) :
    p ∈ flattenForest (.cons k c rest) ↔
      ((c = .nil ∧ p = [k]) ∨
        (c ≠ .nil ∧ ∃ q, q ∈ flattenForest c ∧ p = k :: q)) ∨
      p ∈ flattenForest rest := by
  rw [flattenForest_cons, List.mem_append]
  by_cases hcn : c = .nil
  · subst hcn
    simp [Forest.isNil]
  · rw [if_neg (fun h => hcn ((Forest.isNil_iff c).mp h))]
    simp only [List.mem_map, hcn, ne_eq, not_false_eq_true, true_and,
      false_and, false_or]
    constructor
    · rintro (⟨q, hq, rfl⟩ | hmem)
      · exact Or.inl ⟨q, hq, rfl⟩
      · exact Or.inr hmem
    · rintro (⟨q, hq, rfl⟩ | hmem)
      · exact Or.inl ⟨q, hq, rfl⟩
      · exact Or.inr hmem

theorem mem_flattenForest_iff (f : Forest) (hwf : wfF f = true) (p : List String) :
    p ∈ flattenForest f ↔ p ≠ [] ∧ followF f p = some .nil := by
  induction f generalizing p with
  | nil =>
    simp only [flattenForest, List.not_mem_nil, false_iff, not_and]
    intro hne
    cases p with
    | nil => exact absurd rfl hne
    | cons a as => simp [followF, lookupF]
  | cons k c rest ihc ihr =>
    simp only [wfF, Bool.and_eq_true, Bool.not_eq_true'] at hwf
    obtain ⟨⟨hk, hc⟩, hr⟩ := hwf
    cases p with
    | nil =>
      exact iff_of_false (nil_not_mem_flattenForest _) (by simp)
    | cons a as =>
      rw [mem_flattenForest_cons]
      by_cases hka : k = a
      · subst hka
        have hnotrest : (k :: as) ∉ flattenForest rest := by
          intro hmem
          obtain ⟨k', qs, heq, hk'⟩ := mem_flattenForest_head rest _ hmem
          rw [List.cons.injEq] at heq
          rw [← heq.1] at hk'
          rw [hk'] at hk
          simp at hk
        have hfol : followF (Forest.cons k c rest) (k :: as) =
            followF c as := by
          simp [followF, lookupF]
        rw [hfol]
        simp only [ne_eq, List.cons_ne_nil, not_false_eq_true, true_and]
        constructor
        · rintro ((⟨rfl, hpk⟩ | ⟨hcne, q, hq, hpq⟩) | hmem)
          · rw [List.cons.injEq] at hpk
            rw [hpk.2]
            simp [followF]
          · rw [List.cons.injEq] at hpq
            rw [hpq.2]
            exact ((ihc hc q).mp hq).2
          · exact absurd hmem hnotrest
        · intro hfol2
          left
          by_cases hcn : c = Forest.nil
          · subst hcn
            cases as with
            | nil => exact Or.inl ⟨rfl, rfl⟩
            | cons x xs => simp [followF, lookupF] at hfol2
          · refine Or.inr ⟨hcn, as, ?_, rfl⟩
            rw [ihc hc as]
            refine ⟨?_, hfol2⟩
            intro hasnil
            subst hasnil
            simp only [followF, Option.some.injEq] at hfol2
            exact hcn hfol2
      · have hfol : followF (Forest.cons k c rest) (a :: as) =
            followF rest (a :: as) := by
          simp only [followF, lookupF, beq_iff_eq, hka, if_false]
        rw [hfol]
        constructor
        · rintro ((⟨rfl, hpk⟩ | ⟨hcne, q, hq, hpq⟩) | hmem)
          · rw [List.cons.injEq] at hpk
            exact absurd hpk.1.symm hka
          · rw [List.cons.injEq] at hpq
            exact absurd hpq.1.symm hka
          · exact (ihr hr (a :: as)).mp hmem
        · intro hfol2
          exact Or.inr ((ihr hr (a :: as)).mpr hfol2)

theorem flattenForest_nodup (f : Forest) (hwf : wfF f = true) :
    (flattenForest f).Nodup := by
  induction f with
  | nil => simp [flattenForest]
  | cons k c rest ihc ihr =>
    simp only [wfF, Bool.and_eq_true, Bool.not_eq_true'] at hwf
    obtain ⟨⟨hk, hc⟩, hr⟩ := hwf
    rw [flattenForest_cons]
    refine List.Nodup.append ?_ (ihr hr) ?_
    · by_cases hcn : c.isNil
      · simp [hcn]
      · rw [if_neg hcn]
        refine (ihc hc).map ?_
        intro x y hxy
        rw [List.cons.injEq] at hxy
        exact hxy.2
    · intro q hq1 hq2
      obtain ⟨k', qs, rfl, hk'⟩ := mem_flattenForest_head rest _ hq2
      have hkk : k' = k := by
        by_cases hcn : c.isNil
        · simp only [hcn, if_true, List.mem_singleton, List.cons.injEq] at hq1
          exact hq1.1
        · rw [if_neg hcn] at hq1
          rw [List.mem_map] at hq1
          obtain ⟨q', _, hq'⟩ := hq1
          rw [List.cons.injEq] at hq'
          exact hq'.1.symm
      rw [hkk] at hk'
      rw [hk'] at hk
      simp at hk

theorem splitSlash_ne_nil (cs : List Char) : splitSlash cs ≠ [] := by
  cases cs with
  | nil => simp [splitSlash]
  | cons c rest =>
    simp only [splitSlash]
    cases h : splitSlash rest with
    | nil => simp
    | cons s ss => by_cases hc : c = '/' <;> simp [hc]

theorem splitKey_ne_nil (k : String) : splitKey k ≠ [] := by
  simp only [splitKey, ne_eq, List.map_eq_nil_iff]
  exact splitSlash_ne_nil _

/-- **C4, counterexample.**  With keys `["a", "a/b"]` the key `a` is a
segment-prefix of `a/b`; building the remote tree turns the node of `a`
into an internal node, and flattening back loses the key `a`: the round
trip does not reproduce the original key set. -/
theorem remote_tree_round_trip_cex :
    "a" ∈ (["a", "a/b"] : List String) ∧
    splitKey "a" ∉ flattenForest (buildRemoteTree ["a", "a/b"]) := by
  decide

/-- **C4 (amended).**  For every finite list of `/`-delimited keys in
which no key's segment list is a proper prefix of another's, flattening
the built remote tree yields exactly the segment lists of the original
keys — no key lost, none duplicated.  (A key that is a proper
segment-prefix of another key is lost, see the counterexample.) -/
theorem remote_tree_round_trip (keys : List String)
    (h : ∀ k₁ ∈ keys, ∀ k₂ ∈ keys,
      splitKey k₁ <+: splitKey k₂ → splitKey k₁ = splitKey k₂) :
    (∀ p, p ∈ flattenForest (buildRemoteTree keys) ↔ p ∈ keys.map splitKey) ∧
    (flattenForest (buildRemoteTree keys)).Nodup := by
  have hwf := wfF_buildRemoteTree keys
  obtain ⟨h1, h2⟩ := TrieInv_buildRemoteTree keys
  refine ⟨?_, flattenForest_nodup _ hwf⟩
  intro p
  rw [mem_flattenForest_iff _ hwf]
  constructor
  · rintro ⟨hne, hfol⟩
    have hs : (followF (buildRemoteTree keys) p).isSome := by
      rw [hfol]; rfl
    rcases (h1 p).mp hs with rfl | ⟨q, hqmem, hpq⟩
    · exact absurd rfl hne
    · have hleaf := (h2 p _ hfol).mp rfl
      by_cases hpeq : p = q
      · subst hpeq; exact hqmem
      · exact absurd ⟨q, hqmem, hpq, hpeq⟩ hleaf
  · intro hp
    have hne : p ≠ [] := by
      obtain ⟨k, _, rfl⟩ := List.mem_map.mp hp
      exact splitKey_ne_nil k
    have hs : (followF (buildRemoteTree keys) p).isSome :=
      (h1 p).mpr (Or.inr ⟨p, hp, List.prefix_refl p⟩)
    obtain ⟨u, hu⟩ := Option.isSome_iff_exists.mp hs
    have hun : u = .nil := by
      rw [h2 p u hu]
      rintro ⟨x, hx, hpx, hpnex⟩
      obtain ⟨k₁, hk₁, rfl⟩ := List.mem_map.mp hp
      obtain ⟨k₂, hk₂, rfl⟩ := List.mem_map.mp hx
      exact hpnex (h k₁ hk₁ k₂ hk₂ hpx)
    exact ⟨hne, hun ▸ hu⟩

/-- Witness for C4 (amended) at keys `["a/b", "a/c", "d"]`. -/
theorem remote_tree_round_trip_w :
    splitKey "a/b" ∈ flattenForest (buildRemoteTree ["a/b", "a/c", "d"]) :=
  ((remote_tree_round_trip ["a/b", "a/c", "d"] (by decide)).1
    (splitKey "a/b")).mpr (by decide)

/-! ## Theorems: the `appBUENA.py` orchestrator (claims C1, C2, C6, C7) -/

theorem uploadFolderStructureB_calls (folderPath repoId target : String)
    (patterns : List String) (env : BEnv) :
    (uploadFolderStructureB folderPath repoId target patterns env).2 =
      [.uploadFolder repoId folderPath target] := by
  unfold uploadFolderStructureB
  cases env.upload folderPath <;> rfl

/-- The unit-result message of one dispatched unit is in the Log Sink
part of `upload_folder_structure`'s output: the failure message with the
error detail when the Gateway raised, the success message otherwise. -/
theorem uploadFolderStructureB_records (folderPath repoId target : String)
    (patterns : List String) (env : BEnv) :
    (match env.upload folderPath with
     | .ok _ => uploadDoneMsg folderPath
     | .error e => uploadFailMsg folderPath e) ∈
      (uploadFolderStructureB folderPath repoId target patterns env).1 := by
  unfold uploadFolderStructureB
  cases env.upload folderPath <;> simp

/-- Characterization of the per-folder loop when cancellation is never
observed: every directory item is dispatched as a unit (in listing
order), every dispatched unit is recorded as uploaded, and loose files
produce nothing. -/
theorem uploadLoopB_none (repoId targetPath folderPath : String)
    (patterns : List String) (env : BEnv) (items : List (String × Bool)) :
    uploadLoopB repoId targetPath folderPath patterns env items none =
      ⟨items.flatMap (fun it => if it.2 then
          (uploadFolderStructureB (folderPath ++ "/" ++ it.1) repoId
            (targetPath ++ "/" ++ it.1) patterns env).1 ++
            [uploadedFolderMsg (folderPath ++ "/" ++ it.1)] else []),
       (items.filter (fun it => it.2)).map
         (fun it => uploadedFolderMsg (folderPath ++ "/" ++ it.1)),
       (items.filter (fun it => it.2)).map
         (fun it => GatewayCall.uploadFolder repoId (folderPath ++ "/" ++ it.1)
           (targetPath ++ "/" ++ it.1)),
       false, none⟩ := by
  induction items with
  | nil => rfl
  | cons it rest ih =>
    obtain ⟨name, isDir⟩ := it
    cases isDir with
    | false => simpa [uploadLoopB, cancelSeen, cancelTick] using ih
    | true =>
      have hcs := uploadFolderStructureB_calls (folderPath ++ "/" ++ name)
        repoId (targetPath ++ "/" ++ name) patterns env
      simp only [uploadLoopB, cancelSeen, cancelTick, ih]
      rcases hup : uploadFolderStructureB (folderPath ++ "/" ++ name) repoId
        (targetPath ++ "/" ++ name) patterns env with ⟨sh, cs⟩
      rw [hup] at hcs
      simp only at hcs
      subst hcs
      simp [List.flatMap_cons, List.filter_cons, hup]

/-- Characterization of the per-folder loop when the cancellation flag
becomes visible exactly at the read before the item `cur`: the items
before it are processed as without cancellation, a single cancellation
line is recorded, and nothing at or after `cur` is dispatched. -/
theorem uploadLoopB_cancel (repoId targetPath folderPath : String)
    (patterns : List String) (env : BEnv) (pre : List (String × Bool))
    (cur : String × Bool) (post : List (String × Bool)) :
    uploadLoopB repoId targetPath folderPath patterns env (pre ++ cur :: post)
      (some pre.length) =
      ⟨pre.flatMap (fun it => if it.2 then
          (uploadFolderStructureB (folderPath ++ "/" ++ it.1) repoId
            (targetPath ++ "/" ++ it.1) patterns env).1 ++
            [uploadedFolderMsg (folderPath ++ "/" ++ it.1)] else []) ++
          [cancelledMsg],
       (pre.filter (fun it => it.2)).map
         (fun it => uploadedFolderMsg (folderPath ++ "/" ++ it.1)) ++
         [cancelledMsg],
       (pre.filter (fun it => it.2)).map
         (fun it => GatewayCall.uploadFolder repoId (folderPath ++ "/" ++ it.1)
           (targetPath ++ "/" ++ it.1)),
       true, some 0⟩ := by
  induction pre with
  | nil => rfl
  | cons it pre' ih =>
    obtain ⟨name, isDir⟩ := it
    cases isDir with
    | false =>
      simpa [uploadLoopB, cancelSeen, cancelTick, List.length_cons] using ih
    | true =>
      have hcs := uploadFolderStructureB_calls (folderPath ++ "/" ++ name)
        repoId (targetPath ++ "/" ++ name) patterns env
      simp only [List.cons_append, uploadLoopB, List.length_cons, cancelSeen,
        cancelTick, ih]
      rcases hup : uploadFolderStructureB (folderPath ++ "/" ++ name) repoId
        (targetPath ++ "/" ++ name) patterns env with ⟨sh, cs⟩
      rw [hup] at hcs
      simp only at hcs
      subst hcs
      simp [List.flatMap_cons, List.filter_cons, hup, ih]

theorem authenticateB_ok (token : String) (htok : token ≠ "") :
    authenticateB token (.ok ()) =
      ⟨true, authOkMsg, [authOkMsg], [.authenticate token]⟩ := by
  simp [authenticateB, htok]

/-- **C1, counterexample.**  A three-unit job whose second unit's Gateway
call raises: the failure is recorded in the Log Sink with the error
detail and the remaining unit is dispatched, but the returned job
outcome additionally marks the failed unit as uploaded, the terminal
line is the completion message, and no line of the outcome carries the
error marker — the final job status is not `Failed`. -/
theorem partial_failure_status_cex :
    (uploadFilesBUENA "/src" "o/r" "t" "" true []
        [("f1", true), ("f2", true), ("f3", true)]
        ⟨.ok (), true, .created,
         fun p => if p == "/src/f2" then .error "boom" else .ok (),
         true, fun _ => false, fun _ => .ok ()⟩ none).result.getLast? =
      some completedMsg ∧
    uploadFailMsg "/src/f2" "boom" ∈
      (uploadFilesBUENA "/src" "o/r" "t" "" true []
        [("f1", true), ("f2", true), ("f3", true)]
        ⟨.ok (), true, .created,
         fun p => if p == "/src/f2" then .error "boom" else .ok (),
         true, fun _ => false, fun _ => .ok ()⟩ none).shared ∧
    uploadedFolderMsg "/src/f2" ∈
      (uploadFilesBUENA "/src" "o/r" "t" "" true []
        [("f1", true), ("f2", true), ("f3", true)]
        ⟨.ok (), true, .created,
         fun p => if p == "/src/f2" then .error "boom" else .ok (),
         true, fun _ => false, fun _ => .ok ()⟩ none).result ∧
    (uploadFilesBUENA "/src" "o/r" "t" "" true []
        [("f1", true), ("f2", true), ("f3", true)]
        ⟨.ok (), true, .created,
         fun p => if p == "/src/f2" then .error "boom" else .ok (),
         true, fun _ => false, fun _ => .ok ()⟩ none).result.any isErrorMsg =
      false := by
  decide

/-- **C1 (amended).**  A unit's Gateway error is recorded in the Log
Sink with the error detail and the orchestrator still dispatches every
remaining unit; but the job-level outcome does not reflect per-unit
failures: every dispatched unit is additionally recorded as uploaded in
the returned outcome, whose terminal line is always the completion
message — the final status is never `Failed` because of unit errors. -/
theorem partial_failure_semantics (folderPath repoId token subfolder : String)
    (patterns : List String) (items : List (String × Bool)) (env : BEnv)
    (htok : token ≠ "") :
    (uploadFilesBUENA folderPath repoId token subfolder true patterns items
        { env with auth := .ok (), listFilesOk := true, isdir := true }
        none).calls =
      GatewayCall.authenticate token :: GatewayCall.listRepoFiles repoId ::
        (items.filter (fun it => it.2)).map
          (fun it => GatewayCall.uploadFolder repoId (folderPath ++ "/" ++ it.1)
            (targetPathOf subfolder ++ "/" ++ it.1)) ∧
    (uploadFilesBUENA folderPath repoId token subfolder true patterns items
        { env with auth := .ok (), listFilesOk := true, isdir := true }
        none).result =
      authOkMsg :: repoExistsMsg repoId ::
        ((items.filter (fun it => it.2)).map
          (fun it => uploadedFolderMsg (folderPath ++ "/" ++ it.1)) ++
          [completedMsg]) ∧
    (∀ it ∈ items, it.2 = true →
      (match env.upload (folderPath ++ "/" ++ it.1) with
       | .ok _ => uploadDoneMsg (folderPath ++ "/" ++ it.1)
       | .error e => uploadFailMsg (folderPath ++ "/" ++ it.1) e) ∈
        (uploadFilesBUENA folderPath repoId token subfolder true patterns items
          { env with auth := .ok (), listFilesOk := true, isdir := true }
          none).shared) := by
  refine ⟨?_, ?_, ?_⟩
  · simp [uploadFilesBUENA, authenticateB_ok token htok,
      createRepoIfNotExistsB, uploadLoopB_none, cancelSeen]
  · simp [uploadFilesBUENA, authenticateB_ok token htok,
      createRepoIfNotExistsB, uploadLoopB_none, cancelSeen]
  · intro it hit hdir
    have hmem : (match env.upload (folderPath ++ "/" ++ it.1) with
        | .ok _ => uploadDoneMsg (folderPath ++ "/" ++ it.1)
        | .error e => uploadFailMsg (folderPath ++ "/" ++ it.1) e) ∈
        items.flatMap (fun x => if x.2 then
          (uploadFolderStructureB (folderPath ++ "/" ++ x.1) repoId
            (targetPathOf subfolder ++ "/" ++ x.1) patterns
            { env with auth := .ok (), listFilesOk := true, isdir := true }).1
            ++ [uploadedFolderMsg (folderPath ++ "/" ++ x.1)] else []) := by
      rw [List.mem_flatMap]
      refine ⟨it, hit, ?_⟩
      rw [hdir]
      simp only [if_true]
      rw [List.mem_append]
      exact Or.inl (uploadFolderStructureB_records _ _ _ _ _)
    simp only [uploadFilesBUENA, authenticateB_ok token htok,
      createRepoIfNotExistsB, if_true, Bool.not_true, Bool.false_eq_true,
      if_false, uploadLoopB_none, cancelSeen]
    simp [List.mem_append, hmem]

/-- Witness for C1 (amended): a concrete three-unit job with a failing
middle unit. -/
theorem partial_failure_semantics_w :
    (uploadFilesBUENA "/src" "o/r" "t" "" true []
        [("f1", true), ("f2", true), ("f3", true)]
        ⟨.ok (), true, .created,
         fun p => if p == "/src/f2" then .error "boom" else .ok (),
         true, fun _ => false, fun _ => .ok ()⟩ none).calls =
      GatewayCall.authenticate "t" :: GatewayCall.listRepoFiles "o/r" ::
        (([("f1", true), ("f2", true), ("f3", true)] :
            List (String × Bool)).filter (fun it => it.2)).map
          (fun it => GatewayCall.uploadFolder "o/r" ("/src" ++ "/" ++ it.1)
            (targetPathOf "" ++ "/" ++ it.1)) :=
  (partial_failure_semantics "/src" "o/r" "t" "" []
    [("f1", true), ("f2", true), ("f3", true)]
    ⟨.ok (), true, .created,
     fun p => if p == "/src/f2" then .error "boom" else .ok (),
     true, fun _ => false, fun _ => .ok ()⟩ (by decide)).1

/-- **C2, counterexample.**  A five-unit job cancelled after two units:
units 1–2 are dispatched and recorded, units 3–5 are not dispatched, but
they are not marked `cancelled` — the outcome carries exactly one
cancellation line and no record at all for the remaining units. -/
theorem cancellation_marking_cex :
    (uploadFilesBUENA "/src" "o/r" "t" "" true []
        [("f1", true), ("f2", true), ("f3", true), ("f4", true), ("f5", true)]
        ⟨.ok (), true, .created, fun _ => .ok (), true,
         fun _ => false, fun _ => .ok ()⟩ (some 2)).result =
      [authOkMsg, repoExistsMsg "o/r", uploadedFolderMsg "/src/f1",
       uploadedFolderMsg "/src/f2", cancelledMsg] ∧
    (uploadFilesBUENA "/src" "o/r" "t" "" true []
        [("f1", true), ("f2", true), ("f3", true), ("f4", true), ("f5", true)]
        ⟨.ok (), true, .created, fun _ => .ok (), true,
         fun _ => false, fun _ => .ok ()⟩ (some 2)).calls =
      [.authenticate "t", .listRepoFiles "o/r",
       .uploadFolder "o/r" "/src/f1" "/f1", .uploadFolder "o/r" "/src/f2" "/f2"] ∧
    ((uploadFilesBUENA "/src" "o/r" "t" "" true []
        [("f1", true), ("f2", true), ("f3", true), ("f4", true), ("f5", true)]
        ⟨.ok (), true, .created, fun _ => .ok (), true,
         fun _ => false, fun _ => .ok ()⟩ (some 2)).result.countP
      (fun m => m == cancelledMsg)) = 1 := by
  decide

/-- **C2 (amended).**  If the CancellationSignal becomes visible at the
read before item `cur`, the units before it are dispatched and recorded
succeeded, nothing at or after `cur` is dispatched to the Gateway, and
the run terminates with a single cancellation line as the final status —
the remaining units are not individually marked `cancelled` (they leave
no record in the outcome). -/
theorem cancellation_stops_dispatch (folderPath repoId token subfolder : String)
    (patterns : List String) (pre : List (String × Bool)) (cur : String × Bool)
    (post : List (String × Bool)) (env : BEnv) (htok : token ≠ "") :
    (uploadFilesBUENA folderPath repoId token subfolder true patterns
        (pre ++ cur :: post)
        { env with auth := .ok (), listFilesOk := true, isdir := true, upload := fun _ => .ok () } (some pre.length)).calls =
      GatewayCall.authenticate token :: GatewayCall.listRepoFiles repoId ::
        (pre.filter (fun it => it.2)).map
          (fun it => GatewayCall.uploadFolder repoId (folderPath ++ "/" ++ it.1)
            (targetPathOf subfolder ++ "/" ++ it.1)) ∧
    (uploadFilesBUENA folderPath repoId token subfolder true patterns
        (pre ++ cur :: post)
        { env with auth := .ok (), listFilesOk := true, isdir := true, upload := fun _ => .ok () } (some pre.length)).result =
      authOkMsg :: repoExistsMsg repoId ::
        ((pre.filter (fun it => it.2)).map
          (fun it => uploadedFolderMsg (folderPath ++ "/" ++ it.1)) ++
          [cancelledMsg]) ∧
    (∀ it ∈ pre, it.2 = true →
      uploadDoneMsg (folderPath ++ "/" ++ it.1) ∈
        (uploadFilesBUENA folderPath repoId token subfolder true patterns
          (pre ++ cur :: post)
          { env with auth := .ok (), listFilesOk := true, isdir := true, upload := fun _ => .ok () } (some pre.length)).shared) := by
  refine ⟨?_, ?_, ?_⟩
  · simp [uploadFilesBUENA, authenticateB_ok token htok,
      createRepoIfNotExistsB, uploadLoopB_cancel]
  · simp [uploadFilesBUENA, authenticateB_ok token htok,
      createRepoIfNotExistsB, uploadLoopB_cancel]
  · intro it hit hdir
    have hmem : uploadDoneMsg (folderPath ++ "/" ++ it.1) ∈
        pre.flatMap (fun x => if x.2 then
          (uploadFolderStructureB (folderPath ++ "/" ++ x.1) repoId
            (targetPathOf subfolder ++ "/" ++ x.1) patterns
            { env with auth := .ok (), listFilesOk := true, isdir := true, upload := fun _ => .ok () }).1
            ++ [uploadedFolderMsg (folderPath ++ "/" ++ x.1)] else []) := by
      rw [List.mem_flatMap]
      refine ⟨it, hit, ?_⟩
      rw [hdir]
      simp only [if_true]
      rw [List.mem_append]
      refine Or.inl ?_
      have h := uploadFolderStructureB_records (folderPath ++ "/" ++ it.1)
        repoId (targetPathOf subfolder ++ "/" ++ it.1) patterns
        { env with auth := .ok (), listFilesOk := true, isdir := true, upload := fun _ => .ok () }
      simpa using h
    simp only [uploadFilesBUENA, authenticateB_ok token htok,
      createRepoIfNotExistsB, if_true, Bool.not_true, Bool.false_eq_true,
      if_false, uploadLoopB_cancel]
    simp [List.mem_append, hmem]

/-- Witness for C2 (amended): five units, cancellation visible before
the third. -/
theorem cancellation_stops_dispatch_w :
    (uploadFilesBUENA "/src" "o/r" "t" "" true []
        ([("f1", true), ("f2", true)] ++ ("f3", true) ::
          [("f4", true), ("f5", true)])
        ⟨.ok (), true, .created, fun _ => .ok (), true,
         fun _ => false, fun _ => .ok ()⟩
        (some ([("f1", true), ("f2", true)] :
          List (String × Bool)).length)).calls =
      GatewayCall.authenticate "t" :: GatewayCall.listRepoFiles "o/r" ::
        (([("f1", true), ("f2", true)] :
            List (String × Bool)).filter (fun it => it.2)).map
          (fun it => GatewayCall.uploadFolder "o/r" ("/src" ++ "/" ++ it.1)
            (targetPathOf "" ++ "/" ++ it.1)) :=
  (cancellation_stops_dispatch "/src" "o/r" "t" "" []
    [("f1", true), ("f2", true)] ("f3", true) [("f4", true), ("f5", true)]
    ⟨.ok (), true, .created, fun _ => .ok (), true,
     fun _ => false, fun _ => .ok ()⟩ (by decide)).1

/-- **C6 (confirmed).**  Repository ensuring: a successful existence
check proceeds without a create call; a failed existence check triggers
creation, where an "already exists" conflict (`exist_ok=True`) is
success, while any other creation failure fails the step and aborts the
job with no upload dispatched. -/
theorem ensure_repository_race_tolerant (folderPath repoId token subfolder
      e : String) (pi : Bool) (patterns : List String)
    (items : List (String × Bool)) (env : BEnv) (cd : Option Nat)
    (htok : token ≠ "") :
    (createRepoIfNotExistsB repoId true env.createOutcome).ok = true ∧
    (createRepoIfNotExistsB repoId true env.createOutcome).calls =
      [.listRepoFiles repoId] ∧
    (createRepoIfNotExistsB repoId false CreateOutcome.alreadyExists).ok
      = true ∧
    (createRepoIfNotExistsB repoId false CreateOutcome.alreadyExists).calls
      = [.listRepoFiles repoId, .createRepo repoId true] ∧
    (createRepoIfNotExistsB repoId false (CreateOutcome.otherError e)).ok
      = false ∧
    uploadFilesBUENA folderPath repoId token subfolder pi patterns items
        { env with auth := .ok (), listFilesOk := false, createOutcome := .otherError e } cd =
      ⟨[authOkMsg, repoMissingMsg repoId, repoCreateFailMsg repoId e],
       [authOkMsg, repoCreateFailMsg repoId e],
       [.authenticate token, .listRepoFiles repoId,
        .createRepo repoId true]⟩ := by
  refine ⟨rfl, rfl, rfl, rfl, rfl, ?_⟩
  simp [uploadFilesBUENA, authenticateB_ok token htok, createRepoIfNotExistsB,
    createRepoResult]

/-- Witness for C6. -/
theorem ensure_repository_race_tolerant_w :
    (createRepoIfNotExistsB "o/r" true
      (⟨.ok (), true, .created, fun _ => .ok (), true, fun _ => false,
        fun _ => .ok ()⟩ : BEnv).createOutcome).ok = true :=
  (ensure_repository_race_tolerant "/src" "o/r" "t" "" "boom" true []
    [] ⟨.ok (), true, .created, fun _ => .ok (), true, fun _ => false,
      fun _ => .ok ()⟩ none (by decide)).1

/-- **C7, counterexample.**  A source with one child directory and one
loose file in the root: the run dispatches exactly one upload unit (the
child directory) — there is no additional unit covering the loose
file, which is simply never uploaded. -/
theorem per_folder_loose_files_cex :
    (uploadFilesBUENA "/src" "o/r" "t" "" true [] [("d", true), ("f.txt", false)]
        ⟨.ok (), true, .created, fun _ => .ok (), true,
         fun _ => false, fun _ => .ok ()⟩ none).calls =
      [.authenticate "t", .listRepoFiles "o/r",
       .uploadFolder "o/r" "/src/d" "/d"] ∧
    (([("d", true), ("f.txt", false)] : List (String × Bool)).any
      (fun it => !it.2)) = true := by
  decide

/-- **C7 (amended).**  With per-first-level-folder granularity, the set
of dispatched upload units is exactly one per immediate child directory
of the source, each with destination `target_path_in_repo/<child-name>`;
loose files directly in the source root are never dispatched (there is
no additional unit for them). -/
theorem per_folder_units (folderPath repoId token subfolder : String)
    (patterns : List String) (items : List (String × Bool)) (env : BEnv)
    (htok : token ≠ "") :
    (uploadFilesBUENA folderPath repoId token subfolder true patterns items
        { env with auth := .ok (), listFilesOk := true, isdir := true }
        none).calls =
      GatewayCall.authenticate token :: GatewayCall.listRepoFiles repoId ::
        (items.filter (fun it => it.2)).map
          (fun it => GatewayCall.uploadFolder repoId (folderPath ++ "/" ++ it.1)
            (targetPathOf subfolder ++ "/" ++ it.1)) := by
  simp [uploadFilesBUENA, authenticateB_ok token htok,
    createRepoIfNotExistsB, uploadLoopB_none, cancelSeen]

/-- Witness for C7 (amended). -/
theorem per_folder_units_w :
    (uploadFilesBUENA "/src" "o/r" "t" "" true [] [("d", true), ("f.txt", false)]
        ⟨.ok (), true, .created, fun _ => .ok (), true,
         fun _ => false, fun _ => .ok ()⟩ none).calls =
      GatewayCall.authenticate "t" :: GatewayCall.listRepoFiles "o/r" ::
        (([("d", true), ("f.txt", false)] :
            List (String × Bool)).filter (fun it => it.2)).map
          (fun it => GatewayCall.uploadFolder "o/r" ("/src" ++ "/" ++ it.1)
            (targetPathOf "" ++ "/" ++ it.1)) :=
  per_folder_units "/src" "o/r" "t" "" [] [("d", true), ("f.txt", false)]
    ⟨.ok (), true, .created, fun _ => .ok (), true,
     fun _ => false, fun _ => .ok ()⟩ (by decide)

/-! ## Theorems: validation, filtering, concurrency, cancellation
(claims C5, C8, C9, C10) -/

/-- A message starting with a nonempty string keeps its first character
under concatenation, hence its error classification. -/
theorem isErrorMsg_append (s t : String) (h : s.data ≠ []) :
    isErrorMsg (s ++ t) = isErrorMsg s := by
  unfold isErrorMsg
  rw [String.data_append]
  cases hs : s.data with
  | nil => exact absurd hs h
  | cons c rest => simp [List.cons_append]

theorem data_append_ne_nil (s t : String) (h : s.data ≠ []) :
    (s ++ t).data ≠ [] := by
  rw [String.data_append]
  intro hc
  rw [List.append_eq_nil] at hc
  exact h hc.1

theorem isErrorMsg_pathMissingMsg (p : String) :
    isErrorMsg (pathMissingMsg p) = true := by
  unfold pathMissingMsg
  rw [isErrorMsg_append _ _ (data_append_ne_nil _ _ (by decide)),
    isErrorMsg_append _ _ (by decide)]
  decide

/-- **C5 (confirmed).**  A job failing validation — source directory
missing, repository id failing the `owner/name` shape check, or empty
token — is answered with an error-marked status and performs no Gateway
operation at all, in both whole-tree variants (`app4.py` and
`app3.py`); this also holds regardless of the state of the cancellation
flag at submission. -/
theorem validation_no_gateway (folderPath repoId token subfolder : String)
    (env4 : App4Env) (env3 : App3Env) (dirOk cancelSet : Bool)
    (h : dirOk = false ∨ validRepoId repoId = false ∨ token = "") :
    ((uploadFiles4 folderPath repoId token subfolder
        { env4 with isdir := dirOk } cancelSet).calls = [] ∧
      (∃ m, (uploadFiles4 folderPath repoId token subfolder
        { env4 with isdir := dirOk } cancelSet).ack = some m ∧
        isErrorMsg m = true)) ∧
    ((uploadFiles3 folderPath repoId token subfolder
        { env3 with isdir := dirOk } cancelSet).calls = [] ∧
      (∃ m, (uploadFiles3 folderPath repoId token subfolder
        { env3 with isdir := dirOk } cancelSet).ack = some m ∧
        isErrorMsg m = true)) := by
  cases cancelSet with
  | true =>
    refine ⟨⟨?_, cancelledMsg, ?_, by decide⟩, ⟨?_, cancelledMsg, ?_, by decide⟩⟩ <;>
      simp [uploadFiles4, uploadFiles3]
  | false =>
    cases dirOk with
    | false =>
      refine ⟨⟨?_, pathMissingMsg folderPath, ?_, isErrorMsg_pathMissingMsg folderPath⟩,
        ⟨?_, pathMissingMsg folderPath, ?_, isErrorMsg_pathMissingMsg folderPath⟩⟩ <;>
        simp [uploadFiles4, uploadFiles3]
    | true =>
      have h' : validRepoId repoId = false ∨ token = "" := by
        rcases h with h | h | h
        · exact absurd h (by decide)
        · exact Or.inl h
        · exact Or.inr h
      by_cases hv : validRepoId repoId = true
      · have ht : token = "" := by
          rcases h' with h' | h'
          · rw [hv] at h'; exact absurd h' (by decide)
          · exact h'
        refine ⟨⟨?_, repoTokenRequiredMsg, ?_, by decide⟩,
          ⟨?_, repoTokenRequiredMsg, ?_, by decide⟩⟩ <;>
          simp [uploadFiles4, uploadFiles3, hv, ht]
      · have hv' : validRepoId repoId = false := by
          cases hvv : validRepoId repoId with
          | false => rfl
          | true => exact absurd hvv hv
        refine ⟨⟨?_, repoTokenRequiredMsg, ?_, by decide⟩,
          ⟨?_, repoTokenRequiredMsg, ?_, by decide⟩⟩ <;>
          simp [uploadFiles4, uploadFiles3, hv']

/-- Witness for C5 at an empty token. -/
theorem validation_no_gateway_w :
    ((uploadFiles4 "/src" "u/r" "" ""
        { (⟨.ok (), true, .created, .ok (), true, true⟩ : App4Env) with
            isdir := true } false).calls = [] ∧
      (∃ m, (uploadFiles4 "/src" "u/r" "" ""
        { (⟨.ok (), true, .created, .ok (), true, true⟩ : App4Env) with
            isdir := true } false).ack = some m ∧ isErrorMsg m = true)) ∧
    ((uploadFiles3 "/src" "u/r" "" ""
        { (⟨.ok (), true, .created, .ok (), true, true⟩ : App3Env) with
            isdir := true } false).calls = [] ∧
      (∃ m, (uploadFiles3 "/src" "u/r" "" ""
        { (⟨.ok (), true, .created, .ok (), true, true⟩ : App3Env) with
            isdir := true } false).ack = some m ∧ isErrorMsg m = true)) :=
  validation_no_gateway "/src" "u/r" "" ""
    ⟨.ok (), true, .created, .ok (), true, true⟩
    ⟨.ok (), true, .created, .ok (), true, true⟩ true false
    (Or.inr (Or.inr rfl))

/-- **C8 (confirmed).**  A directory whose examined files are all
excluded by the ignore patterns (the code's `has_files_to_upload` test
is false): the run records the skipped-empty warning for it, makes zero
Gateway calls, and the recorded message is not an error-marked one. -/
theorem skipped_empty_no_upload (files : List String)
    (folderPath repoId pathInRepo : String) (upload : Except String Unit)
    (hv : validRepoId repoId = true)
    (hemp : hasFilesToUpload files ["**/.DS_Store"] = some false) :
    uploadSingleFolder files folderPath repoId pathInRepo true upload =
      some ([noFilesAfterFilterMsg folderPath], []) ∧
    isErrorMsg (noFilesAfterFilterMsg folderPath) = false := by
  constructor
  · simp [uploadSingleFolder, hv, hemp]
  · unfold noFilesAfterFilterMsg
    rw [isErrorMsg_append _ _ (data_append_ne_nil _ _ (by decide)),
      isErrorMsg_append _ _ (by decide)]
    decide

/-- Witness for C8: a directory containing only `.DS_Store`. -/
theorem skipped_empty_no_upload_w :
    uploadSingleFolder [".DS_Store"] "/src" "u/r" "" true (.ok ()) =
      some ([noFilesAfterFilterMsg "/src"], []) ∧
    isErrorMsg (noFilesAfterFilterMsg "/src") = false :=
  skipped_empty_no_upload [".DS_Store"] "/src" "u/r" "" (.ok ())
    (by decide) (by decide)

/-- **C9, counterexample.**  Submitting a job while another run is
active (the lock held): `app2.py` returns the started acknowledgement —
not a "rejected: busy" one — and spawns a worker that queues on the
lock. -/
theorem busy_rejection_cex :
    (uploadFiles2 true false "/src" "u/r" "t"
      ⟨.ok (), .created, .ok (), true⟩).1 = startedMsg ∧
    (uploadFiles2 true false "/src" "u/r" "t"
      ⟨.ok (), .created, .ok (), true⟩).2.1 = true ∧
    (startedMsg == "rejected: busy") = false := by
  decide

/-- **C9 (amended).**  No busy rejection exists on the Gradio
submission path: `app2.py` acknowledges a valid submission as started
and spawns (queues) its worker regardless of whether another run holds
the lock — mutual exclusion happens only inside the worker.  Only the
`streamlit_app.py` front end refuses a second submission: while a run
is flagged active it emits the already-in-progress warning and performs
no Gateway call and no `upload_files` call for the second job. -/
theorem busy_submission_queued (lockHeld : Bool)
    (folderPath repoId token : String) (env2 : App2Env)
    (folderPathS repoIdS tokenS subfolderS : String) (files : List String)
    (envS : StEnv)
    (hf : folderPath ≠ "") (hr : validRepoId repoId = true)
    (ht : token ≠ "") :
    (uploadFiles2 lockHeld false folderPath repoId token
      { env2 with isdir := true }).1 = startedMsg ∧
    (uploadFiles2 lockHeld false folderPath repoId token
      { env2 with isdir := true }).2.1 = true ∧
    mainSubmitSt true folderPathS repoIdS tokenS subfolderS files envS =
      (busyWarningMsg, [], []) := by
  have hrne : repoId ≠ "" := by
    intro hempty
    rw [hempty] at hr
    exact absurd hr (by decide)
  refine ⟨?_, ?_, rfl⟩ <;> simp [uploadFiles2, hf, hr, ht, hrne]

/-- Witness for C9 (amended). -/
theorem busy_submission_queued_w :
    (uploadFiles2 true false "/src" "u/r" "t"
      { (⟨.ok (), .created, .ok (), true⟩ : App2Env) with isdir := true }).1 =
        startedMsg ∧
    (uploadFiles2 true false "/src" "u/r" "t"
      { (⟨.ok (), .created, .ok (), true⟩ : App2Env) with isdir := true }).2.1 =
        true ∧
    mainSubmitSt true "/srcS" "uS/rS" "tS" "" []
        ⟨.ok (), true, .created, fun _ => .ok (), true, true, true⟩ =
      (busyWarningMsg, [], []) :=
  busy_submission_queued true "/src" "u/r" "t"
    ⟨.ok (), .created, .ok (), true⟩ "/srcS" "uS/rS" "tS" "" []
    ⟨.ok (), true, .created, fun _ => .ok (), true, true, true⟩
    (by decide) (by decide) (by decide)

/-- **C10 (confirmed).**  In the event-based variants the cancellation
event is sticky and process-wide: starting from a state where the event
is set, every subsequent `upload_files` submission — any job, valid or
not — is answered with the cancelled message and dispatches no Gateway
call, and the flag remains set after any operation sequence;
`cancel_upload` sets the flag and no operation ever clears it (so any
sequence ending in a cancel leaves it set); the `app3.py` variant's
`upload_files` behaves identically on a set flag. -/
theorem cancellation_sticky :
    (∀ ops : List ISFOp, (runISF true ops).1 = true ∧
      ((runISF true ops).2.all
        (fun o => o == (cancelledMsg, ([] : List GatewayCall)))) = true) ∧
    (∀ (s : Bool) (ops : List ISFOp),
      (runISF s (ops ++ [ISFOp.cancel])).1 = true) ∧
    (∀ (folderPath repoId token subfolder : String) (env : App3Env),
      uploadFiles3 folderPath repoId token subfolder env true =
        ⟨some cancelledMsg, [cancelledMsg], []⟩) := by
  refine ⟨?_, ?_, fun _ _ _ _ _ => rfl⟩
  · intro ops
    induction ops with
    | nil => exact ⟨rfl, rfl⟩
    | cons op rest ih =>
      cases op with
      | submit folderPath repoId token env =>
        simpa [runISF, uploadFilesISF] using ih
      | cancel => simpa [runISF] using ih
  · intro s ops
    induction ops generalizing s with
    | nil => rfl
    | cons op rest ih =>
      cases op with
      | submit folderPath repoId token env => exact ih s
      | cancel => exact ih true

end ISF
